import Mathlib

/-!
Verification of the conversational sales-assistant backend
(conversation state machine, retrieval merge, order commit, reply
pipeline with circuit breaker and response cache, event coalescing).

The TypeScript sources are shallowly embedded: pure computations become
Lean functions, stateful modules become explicit state-passing functions,
and calls to external services (Supabase RPCs, the Vertex embedding API,
the OpenAI completion API, libphonenumber) are driven by explicit outcome
parameters ("oracles") that enumerate the results those calls can produce.
JavaScript numbers that carry similarity scores and prices are modelled as
rationals; timestamps as naturals (milliseconds).
-/

namespace SalesBot

/-! ## Retrieval merge and ranking (services/rag.ts, `retrieveSimilarContext`)

A search row as returned by the Supabase RPCs.  The source reads
`item.similarity ?? 0`, so the similarity can be absent; `effScore`
is the coalesced value used by the merge and the sort. -/

structure RagRow where
  id : String
  name : String
  similarity : Option ℚ
  deriving Repr, DecidableEq

/-- `item.similarity ?? 0` from the source. -/
def effScore (r : RagRow) : ℚ := r.similarity.getD 0

/-- One step of building the `byId` map: JavaScript
`if (!prev || (item.similarity ?? 0) > (prev.similarity ?? 0)) byId.set(item.id, item)`.
A `Map.set` on an existing key updates in place (keeping key order); on a
new key it appends. -/
def upsert (m : List (String × RagRow)) (r : RagRow) : List (String × RagRow) :=
  match m with
  | [] => [(r.id, r)]
  | (k, v) :: rest =>
      if k = r.id then
        if effScore r > effScore v then (k, r) :: rest else (k, v) :: rest
      else
        (k, v) :: upsert rest r

/-- The `byId` map of `retrieveSimilarContext`: fold the concatenated
result rows through `upsert` (the `for (const item of merged)` loop). -/
def byId (l : List RagRow) : List (String × RagRow) :=
  l.foldl upsert []

/-- `Map.get` on the association-list model of the JavaScript `Map`. -/
def lookupRow : List (String × RagRow) → String → Option RagRow
  | [], _ => none
  | (k, v) :: rest, i => if k = i then some v else lookupRow rest i

/-- Score recorded in a merge map for a given product id, if any. -/
def lookupScore (m : List (String × RagRow)) (i : String) : Option ℚ :=
  (lookupRow m i).map effScore

/-- Similarities of all occurrences of the id `i` among the input rows. -/
def scoresOf (l : List RagRow) (i : String) : List ℚ :=
  (l.filter (fun r => r.id = i)).map effScore

/-- Maximum of two optional scores. -/
def omax (a b : Option ℚ) : Option ℚ :=
  match a, b with
  | none, b => b
  | a, none => a
  | some x, some y => some (max x y)

/-- Maximum of a list of scores, as an `Option`. -/
def listMax (l : List ℚ) : Option ℚ :=
  l.foldl (fun acc x => omax acc (some x)) none

/-- Stable insertion (descending by `effScore`) modelling the JavaScript
stable `sort((a, b) => (b.similarity ?? 0) - (a.similarity ?? 0))`. -/
def insertByScore (x : RagRow) : List RagRow → List RagRow
  | [] => [x]
  | y :: ys => if effScore y ≤ effScore x then x :: y :: ys else y :: insertByScore x ys

def sortByScoreDesc (l : List RagRow) : List RagRow :=
  l.foldr insertByScore []

/-- `Array.from(byId.values()).sort(...).slice(0, matchCount)` — the ranked,
truncated merge result of `retrieveSimilarContext`. -/
def mergeRank (hybrid vec : List RagRow) (matchCount : ℕ) : List RagRow :=
  (sortByScoreDesc ((byId (hybrid ++ vec)).map Prod.snd)).take matchCount

/-- Outcomes of the external calls made by `retrieveSimilarContext`:
the Vertex text embedding and the two parallel Supabase searches. -/
structure SearchOutcomes where
  embed : Except Unit (List ℚ)
  hybrid : Except Unit (List RagRow)
  vec : Except Unit (List RagRow)

/-- `retrieveSimilarContext` at outcome level: embed the query (a failure
propagates), run both searches, and per the source `if (e1) throw e1;
if (e2) throw e2;` — then merge, sort descending and truncate. -/
def retrieveSimilarContext (o : SearchOutcomes) (matchCount : ℕ) :
    Except Unit (List RagRow) := do
  let _ ← o.embed
  let h ← o.hybrid
  let v ← o.vec
  pure (mergeRank h v matchCount)

/-! ### Merge lemmas -/

theorem omax_none_right (a : Option ℚ) : omax a none = a := by
  cases a <;> rfl

theorem omax_assoc (a b c : Option ℚ) : omax (omax a b) c = omax a (omax b c) := by
  cases a <;> cases b <;> cases c <;> simp [omax, max_assoc]

theorem omax_comm (a b : Option ℚ) : omax a b = omax b a := by
  cases a <;> cases b <;> simp [omax, max_comm]

theorem lookupScore_upsert (m : List (String × RagRow)) (r : RagRow) (i : String) :
    lookupScore (upsert m r) i =
      if r.id = i then omax (lookupScore m i) (some (effScore r))
      else lookupScore m i := by
  induction m with
  | nil =>
      by_cases h : r.id = i <;> simp [upsert, lookupScore, lookupRow, h, omax]
  | cons kv rest ih =>
      obtain ⟨k, v⟩ := kv
      by_cases hk : k = r.id
      · subst hk
        by_cases hi : r.id = i
        · by_cases hgt : effScore r > effScore v
          · simp only [upsert, if_pos rfl, if_pos hgt, lookupScore,
              lookupRow, if_pos hi, Option.map_some', omax]
            rw [max_comm, max_eq_left (le_of_lt hgt)]
          · simp only [upsert, if_pos rfl, if_neg hgt, lookupScore,
              lookupRow, if_pos hi, Option.map_some', omax]
            rw [max_eq_left (le_of_not_lt hgt)]
        · by_cases hgt : effScore r > effScore v <;>
            simp [upsert, lookupScore, lookupRow, hi, hgt]
      · by_cases hi : k = i
        · subst hi
          have hne : r.id ≠ k := fun h => hk h.symm
          simp [upsert, lookupScore, lookupRow, hk, hne]
        · simp only [upsert, if_neg hk, lookupScore, lookupRow, if_neg hi]
          simpa [lookupScore] using ih

theorem listMax_cons (x : ℚ) (xs : List ℚ) :
    listMax (x :: xs) = xs.foldl (fun acc y => omax acc (some y)) (some x) := by
  simp [listMax, omax]

theorem foldl_omax_acc (l : List ℚ) (a : Option ℚ) :
    l.foldl (fun acc x => omax acc (some x)) a = omax a (listMax l) := by
  induction l generalizing a with
  | nil => simp [listMax, omax_none_right]
  | cons x xs ih =>
      rw [List.foldl_cons, ih, listMax_cons, ih, omax_assoc]

theorem scoresOf_cons (r : RagRow) (rest : List RagRow) (i : String) :
    scoresOf (r :: rest) i =
      if r.id = i then effScore r :: scoresOf rest i else scoresOf rest i := by
  by_cases h : r.id = i <;> simp [scoresOf, h]

theorem lookupScore_foldl (l : List RagRow) (m : List (String × RagRow)) (i : String) :
    lookupScore (l.foldl upsert m) i =
      omax (lookupScore m i) (listMax (scoresOf l i)) := by
  induction l generalizing m with
  | nil => simp [scoresOf, listMax, omax_none_right]
  | cons r rest ih =>
      rw [List.foldl_cons, ih, lookupScore_upsert, scoresOf_cons]
      by_cases h : r.id = i
      · rw [if_pos h, if_pos h, listMax_cons, foldl_omax_acc, omax_assoc]
      · rw [if_neg h, if_neg h]

/-- Per-id score of the merge map equals the maximum similarity of all
occurrences of that id in the input. -/
theorem lookupScore_byId (l : List RagRow) (i : String) :
    lookupScore (byId l) i = listMax (scoresOf l i) := by
  have h := lookupScore_foldl l [] i
  rw [byId]
  rw [h]
  simp [lookupScore, lookupRow, omax]

theorem listMax_mem_le {l : List ℚ} {x : ℚ} (hx : x ∈ l) :
    ∃ s, listMax l = some s ∧ x ≤ s := by
  induction l with
  | nil => cases hx
  | cons y ys ih =>
      rw [listMax_cons, foldl_omax_acc]
      rcases List.mem_cons.mp hx with h | h
      · subst h
        cases hm : listMax ys with
        | none => exact ⟨x, rfl, le_refl x⟩
        | some s => exact ⟨max x s, rfl, le_max_left x s⟩
      · obtain ⟨s, hs, hxs⟩ := ih h
        rw [hs]
        exact ⟨max y s, rfl, le_trans hxs (le_max_right y s)⟩

theorem listMax_perm {l l' : List ℚ} (h : l.Perm l') : listMax l = listMax l' :=
  h.foldl_eq'
    (fun x _ y _ z => by
      rw [omax_assoc, omax_assoc, omax_comm (some x) (some y)]) none

/-- The merge map, viewed as id ↦ score, is invariant under permutation of
the concatenated input rows (in particular under swapping the two input
result lists). -/
theorem lookupScore_byId_perm {l l' : List RagRow} (h : l.Perm l') (i : String) :
    lookupScore (byId l) i = lookupScore (byId l') i := by
  rw [lookupScore_byId, lookupScore_byId]
  exact listMax_perm ((h.filter _).map _)

theorem mem_insertByScore {b x : RagRow} {l : List RagRow} :
    b ∈ insertByScore x l ↔ b = x ∨ b ∈ l := by
  induction l with
  | nil => simp [insertByScore]
  | cons y ys ih =>
      by_cases h : effScore y ≤ effScore x
      · rw [insertByScore, if_pos h]
        simp [List.mem_cons]
      · rw [insertByScore, if_neg h]
        simp only [List.mem_cons, ih]
        tauto

theorem pairwise_insertByScore (x : RagRow) (l : List RagRow)
    (hl : l.Pairwise (fun a b => effScore b ≤ effScore a)) :
    (insertByScore x l).Pairwise (fun a b => effScore b ≤ effScore a) := by
  induction l with
  | nil => simp [insertByScore]
  | cons y ys ih =>
      obtain ⟨hy, hys⟩ := List.pairwise_cons.mp hl
      by_cases h : effScore y ≤ effScore x
      · rw [insertByScore, if_pos h]
        refine List.pairwise_cons.mpr ⟨?_, hl⟩
        intro b hb
        rcases List.mem_cons.mp hb with hb | hb
        · subst hb; exact h
        · exact le_trans (hy b hb) h
      · rw [insertByScore, if_neg h]
        refine List.pairwise_cons.mpr ⟨?_, ih hys⟩
        intro b hb
        rcases mem_insertByScore.mp hb with hb | hb
        · subst hb; exact le_of_not_le h
        · exact hy b hb

theorem pairwise_sortByScoreDesc (l : List RagRow) :
    (sortByScoreDesc l).Pairwise (fun a b => effScore b ≤ effScore a) := by
  induction l with
  | nil => simp [sortByScoreDesc]
  | cons x xs ih => exact pairwise_insertByScore x _ ih

theorem mergeRank_sorted (hybrid vec : List RagRow) (matchCount : ℕ) :
    (mergeRank hybrid vec matchCount).Pairwise (fun a b => effScore b ≤ effScore a) :=
  (pairwise_sortByScoreDesc _).sublist (List.take_sublist _ _)

theorem mergeRank_length (hybrid vec : List RagRow) (matchCount : ℕ) :
    (mergeRank hybrid vec matchCount).length ≤ matchCount := by
  simp [mergeRank]

/-! ## Order commit (services/orders.ts, `createOrder`)

The orders store is the visible slice of the database: the `orders` and
`order_items` tables.  The outcomes of the three Supabase mutations the
function performs (insert order, insert items, rollback delete) are made
explicit. -/

structure OrderItemIn where
  productId : String
  quantity : ℚ
  price : ℚ
  deriving Repr, DecidableEq

structure OrderRow where
  id : String
  customerId : String
  total : ℚ
  deriving Repr, DecidableEq

structure ItemRow where
  orderId : String
  productId : String
  qty : ℚ
  price : ℚ
  deriving Repr, DecidableEq

structure OrdersDb where
  orders : List OrderRow
  orderItems : List ItemRow
  deriving Repr, DecidableEq

/-- Outcomes of the Supabase calls inside `createOrder`: the order insert
(returning the new row id on success), the items insert, and the rollback
delete issued when the items insert fails. -/
structure CreateOrderOutcome where
  insertOrder : Except Unit String
  itemsOk : Bool
  deleteOk : Bool
  deriving Repr

/-- Result row of `createOrder` (`{ id, customer_id, total, items }`). -/
structure OrderResult where
  id : String
  customerId : String
  total : ℚ
  items : List OrderItemIn
  deriving Repr, DecidableEq

/-- `items.reduce((sum, item) => sum + item.price * item.quantity, 0)`. -/
def orderTotal (items : List OrderItemIn) : ℚ :=
  items.foldl (fun sum item => sum + item.price * item.quantity) 0

/-- `createOrder` from services/orders.ts.  Guard clauses for a missing
tenant id and an empty item list throw; the order row is inserted; if the
items insert fails the code logs, attempts `delete().eq('id', order.id)`
(which can itself fail, leaving the order row behind) and rethrows. -/
def createOrder (db : OrdersDb) (tenantConfigured : Bool) (customerId : String)
    (items : List OrderItemIn) (o : CreateOrderOutcome) :
    OrdersDb × Except Unit OrderResult :=
  if ¬tenantConfigured then (db, .error ())
  else if items.isEmpty then (db, .error ())
  else
    let total := orderTotal items
    match o.insertOrder with
    | .error _ => (db, .error ())
    | .ok oid =>
        let db1 : OrdersDb :=
          { db with orders := db.orders ++ [⟨oid, customerId, total⟩] }
        if o.itemsOk then
          let rows := items.map fun it => ItemRow.mk oid it.productId it.quantity it.price
          ({ db1 with orderItems := db1.orderItems ++ rows },
            .ok ⟨oid, customerId, total, items⟩)
        else
          if o.deleteOk then
            ({ db1 with orders := db1.orders.filter (fun r => r.id ≠ oid) }, .error ())
          else
            (db1, .error ())

/-- Membership of an order id in the orders table. -/
def hasOrder (db : OrdersDb) (oid : String) : Bool :=
  db.orders.any (fun r => r.id = oid)

/-! ## Event coalescing (utils/event-buffer.ts, `EventBuffer`)

The buffer and timer maps become association lists; `setTimeout` is
modelled by giving every scheduled timeout a fresh numeric id and keeping
the ids that are still pending (scheduled, not cancelled, not yet fired).
A `fire` action runs the timeout's closure; firing an id that was
cancelled by `clearTimeout`, or already fired, is a no-op.  Events and
timer fires interleave as atomic steps of the Node event loop. -/

/-- JavaScript `a || b` on optional strings (the empty string is falsy). -/
def jsOr (a b : Option String) : Option String :=
  match a with
  | some s => if s = "" then b else some s
  | none => b

structure BufferedEvent where
  senderId : String
  messageText : String
  imageUrl : Option String
  mid : Option String
  timestamp : ℕ
  deriving Repr, DecidableEq

structure EventBufferState where
  waitTimeMs : ℕ
  buffer : List (String × BufferedEvent)
  timers : List (String × ℕ)
  pendingTimers : List (ℕ × String)
  nextTimer : ℕ
  fired : List BufferedEvent
  deriving Repr, DecidableEq

namespace EventBufferState

def lookupBuf : List (String × BufferedEvent) → String → Option BufferedEvent
  | [], _ => none
  | (k, v) :: rest, i => if k = i then some v else lookupBuf rest i

def lookupTimer : List (String × ℕ) → String → Option ℕ
  | [], _ => none
  | (k, v) :: rest, i => if k = i then some v else lookupTimer rest i

def lookupPending : List (ℕ × String) → ℕ → Option String
  | [], _ => none
  | (k, v) :: rest, i => if k = i then some v else lookupPending rest i

def setAssoc (m : List (String × BufferedEvent)) (k : String) (v : BufferedEvent) :
    List (String × BufferedEvent) :=
  match m with
  | [] => [(k, v)]
  | (k', v') :: rest => if k' = k then (k, v) :: rest else (k', v') :: setAssoc rest k v

def setTimerAssoc (m : List (String × ℕ)) (k : String) (v : ℕ) : List (String × ℕ) :=
  match m with
  | [] => [(k, v)]
  | (k', v') :: rest => if k' = k then (k, v) :: rest else (k', v') :: setTimerAssoc rest k v

/-- A fresh `EventBuffer` (`new EventBuffer(waitTimeMs)`). -/
def init (waitTimeMs : ℕ) : EventBufferState :=
  ⟨waitTimeMs, [], [], [], 0, []⟩

/-- The merge step of `addEvent`: keep the longer text, `imageUrl ||
existing.imageUrl`, `mid || existing.mid`, keep the original timestamp. -/
def mergeEvents (senderId text : String) (imageUrl mid : Option String)
    (existing : BufferedEvent) : BufferedEvent :=
  { senderId := senderId
    messageText :=
      if existing.messageText.length < text.length then text else existing.messageText
    imageUrl := jsOr imageUrl existing.imageUrl
    mid := jsOr mid existing.mid
    timestamp := existing.timestamp }

/-- `EventBuffer.addEvent`.  If a buffered turn younger than `waitTimeMs`
exists it is merged (original timer cancelled, short 500 ms settle timer
scheduled); otherwise a new entry is buffered with a full-window timer. -/
def addEvent (eb : EventBufferState) (now : ℕ) (senderId text : String)
    (imageUrl mid : Option String) : EventBufferState :=
  match lookupBuf eb.buffer senderId with
  | some existing =>
      if now - existing.timestamp < eb.waitTimeMs then
        let merged := mergeEvents senderId text imageUrl mid existing
        let pending1 :=
          match lookupTimer eb.timers senderId with
          | some tid => eb.pendingTimers.filter (fun p => p.1 ≠ tid)
          | none => eb.pendingTimers
        let timers1 :=
          match lookupTimer eb.timers senderId with
          | some _ => eb.timers.filter (fun p => p.1 ≠ senderId)
          | none => eb.timers
        { eb with
            buffer := setAssoc eb.buffer senderId merged
            timers := setTimerAssoc timers1 senderId eb.nextTimer
            pendingTimers := pending1 ++ [(eb.nextTimer, senderId)]
            nextTimer := eb.nextTimer + 1 }
      else
        { eb with
            buffer := setAssoc eb.buffer senderId
              ⟨senderId, text, imageUrl, mid, now⟩
            timers := setTimerAssoc eb.timers senderId eb.nextTimer
            pendingTimers := eb.pendingTimers ++ [(eb.nextTimer, senderId)]
            nextTimer := eb.nextTimer + 1 }
  | none =>
      { eb with
          buffer := setAssoc eb.buffer senderId
            ⟨senderId, text, imageUrl, mid, now⟩
          timers := setTimerAssoc eb.timers senderId eb.nextTimer
          pendingTimers := eb.pendingTimers ++ [(eb.nextTimer, senderId)]
          nextTimer := eb.nextTimer + 1 }

/-- A scheduled timeout fires: if still pending, run the closure — look
the sender up in the buffer and, when present, delete the buffer entry,
delete the timer entry and invoke the callback (recorded in `fired`). -/
def fire (eb : EventBufferState) (tid : ℕ) : EventBufferState :=
  match lookupPending eb.pendingTimers tid with
  | none => eb
  | some sender =>
      let eb1 := { eb with pendingTimers := eb.pendingTimers.filter (fun p => p.1 ≠ tid) }
      match lookupBuf eb1.buffer sender with
      | some final =>
          { eb1 with
              buffer := eb1.buffer.filter (fun p => p.1 ≠ sender)
              timers := eb1.timers.filter (fun p => p.1 ≠ sender)
              fired := eb1.fired ++ [final] }
      | none => eb1

/-- Run a sequence of timer fires. -/
def applyFires (eb : EventBufferState) (fs : List ℕ) : EventBufferState :=
  fs.foldl fire eb

end EventBufferState

/-! ## Text utilities (utils/text.ts, formatters/formatting.ts, utils/language.ts) -/

/-- JavaScript `trim()` (whitespace stripped from both ends), on the
character-list representation. -/
def jsTrim (s : String) : String :=
  ⟨((s.data.dropWhile Char.isWhitespace).reverse.dropWhile Char.isWhitespace).reverse⟩

/-- JavaScript `toLowerCase()` on the character-list representation. -/
def jsLower (s : String) : String :=
  ⟨s.data.map Char.toLower⟩

/-- JavaScript `split(sep)` for a single-character separator. -/
def jsSplitChars (sep : Char) : List Char → List (List Char)
  | [] => [[]]
  | c :: cs =>
      match jsSplitChars sep cs with
      | [] => if c = sep then [[], []] else [[c]]
      | g :: gs => if c = sep then [] :: g :: gs else (c :: g) :: gs

def jsSplit (sep : Char) (s : String) : List String :=
  (jsSplitChars sep s.data).map String.mk

/-- `clampText` from utils/text.ts: trim, return as-is when within the
bound, else truncate and append the suffix. -/
def clampText (input : String) (maxChars : ℕ) (suffix : String) : String :=
  let trimmed := jsTrim input
  if trimmed.length ≤ maxChars then trimmed else trimmed.take maxChars ++ suffix

/-- Match a pattern at the head of a list, returning the remainder. -/
def matchLead : List Char → List Char → Option (List Char)
  | [], l => some l
  | _, [] => none
  | p :: ps, c :: cs => if p = c then matchLead ps cs else none

/-- Longest leading run of characters not rejected by `bad`. -/
def takeRun (bad : Char → Bool) : List Char → List Char × List Char
  | [] => ([], [])
  | c :: cs =>
      if bad c then ([], c :: cs)
      else
        let (r, rest) := takeRun bad cs
        (c :: r, rest)

theorem matchLead_length {p l r : List Char} (h : matchLead p l = some r) :
    r.length ≤ l.length := by
  induction p generalizing l r with
  | nil =>
      simp only [matchLead, Option.some.injEq] at h
      subst h
      exact le_refl _
  | cons x xs ih =>
      cases l with
      | nil => cases h
      | cons c cs =>
          by_cases hx : x = c
          · rw [matchLead, if_pos hx] at h
            exact Nat.le_succ_of_le (ih h)
          · rw [matchLead, if_neg hx] at h
            cases h

theorem takeRun_length (bad : Char → Bool) (l : List Char) :
    (takeRun bad l).1.length + (takeRun bad l).2.length = l.length := by
  induction l with
  | nil => simp [takeRun]
  | cons c cs ih =>
      by_cases h : bad c
      · simp [takeRun, h]
      · simp only [takeRun, h, Bool.false_eq_true, if_false, List.length_cons]
        omega

/-- Attempt to match `open([^bad]+)close` at the current position,
returning the captured run and the remainder after the match. -/
def delimStep (dOpen dClose : List Char) (bad : Char → Bool) (c : Char)
    (cs : List Char) : Option (List Char × List Char) :=
  match matchLead dOpen (c :: cs) with
  | none => none
  | some rest1 =>
      if (takeRun bad rest1).1 = [] then none
      else
        match matchLead dClose (takeRun bad rest1).2 with
        | none => none
        | some rest3 => some ((takeRun bad rest1).1, rest3)

theorem delimStep_length {dOpen dClose : List Char} {bad : Char → Bool}
    {c : Char} {cs : List Char} {pr : List Char × List Char}
    (h : delimStep dOpen dClose bad c cs = some pr) :
    pr.2.length ≤ cs.length := by
  unfold delimStep at h
  cases hm : matchLead dOpen (c :: cs) with
  | none => rw [hm] at h; cases h
  | some rest1 =>
      rw [hm] at h
      simp only at h
      by_cases hrun : (takeRun bad rest1).1 = []
      · rw [if_pos hrun] at h; cases h
      · rw [if_neg hrun] at h
        cases hc : matchLead dClose (takeRun bad rest1).2 with
        | none => rw [hc] at h; cases h
        | some rest3 =>
            rw [hc] at h
            cases h
            have h1 := matchLead_length hm
            have h2 := takeRun_length bad rest1
            have h3 := matchLead_length hc
            have hpos : 0 < (takeRun bad rest1).1.length :=
              List.length_pos.mpr hrun
            simp only [List.length_cons] at h1
            show rest3.length ≤ cs.length
            omega

/-- One global JavaScript `replace` pass for a pattern of the shape
`open([^bad]+)close → $1`: scan left to right, replace every match by the
captured run, resume scanning after each match.  Structural recursion on a
fuel counter (each step consumes at least one character, so any fuel of at
least the input length runs the scan to completion; see
`delimStep_length`). -/
def replaceDelimFuel (dOpen dClose : List Char) (bad : Char → Bool) :
    ℕ → List Char → List Char
  | 0, l => l
  | _ + 1, [] => []
  | fuel + 1, c :: cs =>
      match delimStep dOpen dClose bad c cs with
      | some pr => pr.1 ++ replaceDelimFuel dOpen dClose bad fuel pr.2
      | none => c :: replaceDelimFuel dOpen dClose bad fuel cs

def replaceDelim (dOpen dClose : List Char) (bad : Char → Bool)
    (l : List Char) : List Char :=
  replaceDelimFuel dOpen dClose bad l.length l

def star : Char := '*'
def underscore : Char := '_'
def tilde : Char := '~'
def backquote : Char := Char.ofNat 96

/-- `stripMarkdown` from formatters/formatting.ts: the six global
replacements (bold, single-star, double-underscore, single-underscore,
strikethrough, code) applied in source order. -/
def stripMarkdown (text : String) : String :=
  let l0 := text.data
  let l1 := replaceDelim [star, star] [star, star] (fun c => c = star) l0
  let l2 := replaceDelim [star] [star] (fun c => c = star) l1
  let l3 := replaceDelim [underscore, underscore] [underscore, underscore]
    (fun c => c = underscore) l2
  let l4 := replaceDelim [underscore] [underscore] (fun c => c = underscore) l3
  let l5 := replaceDelim [tilde, tilde] [tilde, tilde] (fun c => c = tilde) l4
  let l6 := replaceDelim [backquote] [backquote] (fun c => c = backquote) l5
  String.mk l6

/-- `cleanAIResponse` just strips markdown. -/
def cleanAIResponse (response : String) : String :=
  stripMarkdown response

inductive Language where
  | en
  | km
  deriving Repr, DecidableEq

/-- JavaScript `\w` (ASCII word character). -/
def isWordChar (c : Char) : Bool :=
  c.isAlphanum || c = '_'

/-- Maximal runs of word characters, by structural recursion on a fuel
counter (each step consumes at least one character, so fuel of at least
the input length runs the scan to completion; see `takeRun_length`). -/
def wordsOfFuel : ℕ → List Char → List (List Char)
  | 0, _ => []
  | _ + 1, [] => []
  | fuel + 1, c :: cs =>
      if isWordChar c then
        (c :: (takeRun (fun d => !isWordChar d) cs).1) ::
          wordsOfFuel fuel (takeRun (fun d => !isWordChar d) cs).2
      else wordsOfFuel fuel cs

def wordsOf (l : List Char) : List (List Char) :=
  wordsOfFuel l.length l

/-- The Romanized-Khmer word lists of `detectLanguage`. -/
def romanizedKhmerWords : List String :=
  ["ban", "mean", "ot", "te", "min", "na", "tae", "nih", "nuh", "som",
   "jol", "chit", "cher", "del", "aoy",
   "khnhom", "neak", "bong", "oun", "pros", "srey", "kmeng",
   "tngai", "yub", "pel"]

/-- Khmer script range U+1780–U+17FF. -/
def isKhmerChar (c : Char) : Bool :=
  0x1780 ≤ c.toNat && c.toNat ≤ 0x17FF

/-- `detectLanguage` from utils/language.ts. -/
def detectLanguage (text : String) : Language :=
  if (jsTrim text).length = 0 then .en
  else if text.data.any isKhmerChar then .km
  else if (wordsOf text.data).any
      (fun w => romanizedKhmerWords.contains (String.mk (w.map Char.toLower))) then .km
  else .en

/-! ## Rate limiter (security/rate-limiter.ts, `RateLimiter.allowEvent`) -/

structure RateBucket where
  count : ℕ
  resetAt : ℕ
  deriving Repr, DecidableEq

def lookupBucket : List (String × RateBucket) → String → Option RateBucket
  | [], _ => none
  | (k, v) :: rest, i => if k = i then some v else lookupBucket rest i

def setBucket (m : List (String × RateBucket)) (k : String) (v : RateBucket) :
    List (String × RateBucket) :=
  match m with
  | [] => [(k, v)]
  | (k', v') :: rest => if k' = k then (k, v) :: rest else (k', v') :: setBucket rest k v

/-- `RateLimiter.allowEvent`: missing or expired bucket resets to one event
and allows; under the ceiling increments and allows; otherwise rejects. -/
def allowEvent (buckets : List (String × RateBucket)) (windowMs maxEvents now : ℕ)
    (userId : String) : Bool × List (String × RateBucket) :=
  match lookupBucket buckets userId with
  | none => (true, setBucket buckets userId ⟨1, now + windowMs⟩)
  | some b =>
      if b.resetAt ≤ now then (true, setBucket buckets userId ⟨1, now + windowMs⟩)
      else if b.count < maxEvents then
        (true, setBucket buckets userId ⟨b.count + 1, b.resetAt⟩)
      else (false, buckets)

/-! ## Reply pipeline (core/ai.ts)

State shared by the module: the response cache, the circuit breaker
counters and the per-user AI rate-limit buckets.  The OpenAI completion
call is an oracle (`Except Unit String`: an exception, or the returned
content).  The model takes the message text after `sanitizeInput`; the
inputs used in the theorems below are fixed points of that sanitizer
(plain alphanumeric text), on which the embedding is exact. -/

structure CacheEntry where
  response : String
  language : Language
  timestamp : ℕ
  deriving Repr, DecidableEq

structure AiState where
  cache : List (String × CacheEntry)
  cbFailures : ℕ
  cbResetTime : ℕ
  aiRateBuckets : List (String × RateBucket)
  deriving Repr, DecidableEq

def AiState.initial : AiState := ⟨[], 0, 0, []⟩

def CACHE_TTL : ℕ := 300000
def CIRCUIT_BREAKER_THRESHOLD : ℕ := 5
def CIRCUIT_BREAKER_TIMEOUT : ℕ := 60000

def lookupCache : List (String × CacheEntry) → String → Option CacheEntry
  | [], _ => none
  | (k, v) :: rest, i => if k = i then some v else lookupCache rest i

def setCache (m : List (String × CacheEntry)) (k : String) (v : CacheEntry) :
    List (String × CacheEntry) :=
  match m with
  | [] => [(k, v)]
  | (k', v') :: rest => if k' = k then (k, v) :: rest else (k', v') :: setCache rest k v

/-- `isCircuitBreakerOpen`: open while `circuitBreakerResetTime` is in the
future; a non-zero reset time that has elapsed resets the breaker. -/
def isCircuitBreakerOpen (st : AiState) (now : ℕ) : Bool × AiState :=
  if now < st.cbResetTime then (true, st)
  else if 0 < st.cbResetTime then (false, { st with cbFailures := 0, cbResetTime := 0 })
  else (false, st)

/-- `recordCircuitBreakerFailure`: increment; on reaching the threshold,
set the reset time one timeout into the future. -/
def recordCircuitBreakerFailure (st : AiState) (now : ℕ) : AiState :=
  let f := st.cbFailures + 1
  { st with
      cbFailures := f
      cbResetTime :=
        if CIRCUIT_BREAKER_THRESHOLD ≤ f then now + CIRCUIT_BREAKER_TIMEOUT
        else st.cbResetTime }

/-- Which path of the pipeline produced the reply (instrumentation: the
backend is invoked exactly on the `backendError`/`backendEmpty`/`success`
paths). -/
inductive AiPath where
  | rateLimited
  | breakerOpen
  | cacheHit
  | backendError
  | backendEmpty
  | success
  deriving Repr, DecidableEq

def AiPath.usedBackend : AiPath → Bool
  | .backendError => true
  | .backendEmpty => true
  | .success => true
  | _ => false

structure AiReply where
  reply : String
  language : Language
  path : AiPath
  deriving Repr, DecidableEq

def rateFallback : Language → String
  | .km => "សូមអភ័យទោស អ្នកបានផ្ញើសារច្រើនពេក។ សូមរង់ចាំបន្តិច។"
  | .en => "Sorry, you're sending messages too quickly. Please wait a moment."

def unavailableFallback : Language → String
  | .km => "សូមអភ័យទោស សេវាកម្មបច្ចុប្បន្នមិនអាចប្រើបានទេ។ សូមព្យាយាមម្តងទៀតក្នុងពេលបន្តិចទៀត។"
  | .en => "Sorry, the service is temporarily unavailable. Please try again in a moment."

def techFallback : Language → String
  | .km => "សូមអភ័យទោស មានបញ្ហាបច្ចេកទេស។ សូមព្យាយាមម្តងទៀត។"
  | .en => "Sorry, there was a technical issue. Please try again."

def emptyFallbackSimple : Language → String
  | .km => "ខ្ញុំត្រៀមខ្លួនរួចហើយដើម្បីជួយអ្នក! តើអ្នកអាចសួរម្តងទៀតបានទេ?"
  | .en => "I'm here and ready to help! Could you rephrase your question?"

def emptyFallbackHistory : Language → String
  | .km => "ពិតណាស់ — តើខ្ញុំអាចជួយអ្វីបានទៀត?"
  | .en => "Sure—how can I help further?"

def languageTag : Language → String
  | .km => "km"
  | .en => "en"

/-- Cache key of the history-aware path:
`history:${userId}:${safeUser.slice(0, 50)}:${!!lead}`. -/
def cacheKeyHistory (userId safeUser : String) (hasLead : Bool) : String :=
  "history:" ++ userId ++ ":" ++ safeUser.take 50 ++ ":" ++
    (if hasLead then "true" else "false")

/-- Cache key of the simple path: `simple:${safeUser}:${language}`. -/
def cacheKeySimple (safeUser : String) (language : Language) : String :=
  "simple:" ++ safeUser ++ ":" ++ languageTag language

/-- Backend phase shared by both reply functions: exception → breaker
failure plus technical fallback; empty content → fixed fallback (breaker
untouched); otherwise strip markdown, clamp, cache and decrement the
breaker toward zero. -/
def backendPhase (st : AiState) (now : ℕ) (key : String) (language : Language)
    (emptyFallback : String) (backend : Except Unit String) : AiState × AiReply :=
  match backend with
  | .error _ =>
      (recordCircuitBreakerFailure st now, ⟨techFallback language, language, .backendError⟩)
  | .ok content =>
      let c := jsTrim content
      if c.length = 0 then (st, ⟨emptyFallback, language, .backendEmpty⟩)
      else
        let finalReply := clampText (cleanAIResponse c) 800 "…"
        ({ st with
            cache := setCache st.cache key ⟨finalReply, language, now⟩
            cbFailures := st.cbFailures - 1 },
          ⟨finalReply, language, .success⟩)

/-- `generateAiReplyWithHistory` from core/ai.ts: validation (throws on a
blank user id or message, or a message over 5000 characters), per-user
rate limit, circuit breaker, response cache keyed on the first 50
characters of the clamped input, then the guarded backend call. -/
def generateAiReplyWithHistory (st : AiState) (now : ℕ) (userId msg : String)
    (hasLead : Bool) (backend : Except Unit String) :
    AiState × Except Unit AiReply :=
  if userId.length = 0 ∨ (jsTrim msg).length = 0 then (st, .error ())
  else if 5000 < msg.length then (st, .error ())
  else
    let rl := allowEvent st.aiRateBuckets 30000 4 now userId
    let st1 := { st with aiRateBuckets := rl.2 }
    let language := detectLanguage msg
    if ¬rl.1 then (st1, .ok ⟨rateFallback language, language, .rateLimited⟩)
    else
      let safeUser := clampText msg 800 "…"
      let cb := isCircuitBreakerOpen st1 now
      if cb.1 then (cb.2, .ok ⟨unavailableFallback language, language, .breakerOpen⟩)
      else
        let st2 := cb.2
        let key := cacheKeyHistory userId safeUser hasLead
        match lookupCache st2.cache key with
        | some entry =>
            if now - entry.timestamp < CACHE_TTL then
              (st2, .ok ⟨entry.response, entry.language, .cacheHit⟩)
            else
              let r := backendPhase st2 now key language (emptyFallbackHistory language) backend
              (r.1, .ok r.2)
        | none =>
            let r := backendPhase st2 now key language (emptyFallbackHistory language) backend
            (r.1, .ok r.2)

/-- `generateAiReply` from core/ai.ts (the history-free variant): same
validation, then cache (keyed on the full clamped input), circuit breaker
and the guarded backend call; no rate limiter. -/
def generateAiReply (st : AiState) (now : ℕ) (msg : String)
    (backend : Except Unit String) : AiState × Except Unit AiReply :=
  if (jsTrim msg).length = 0 then (st, .error ())
  else if 5000 < msg.length then (st, .error ())
  else
    let language := detectLanguage msg
    let safeUser := clampText msg 800 "…"
    let key := cacheKeySimple safeUser language
    match lookupCache st.cache key with
    | some entry =>
        if now - entry.timestamp < CACHE_TTL then
          (st, .ok ⟨entry.response, entry.language, .cacheHit⟩)
        else
          let cb := isCircuitBreakerOpen st now
          if cb.1 then (cb.2, .ok ⟨unavailableFallback language, language, .breakerOpen⟩)
          else
            let r := backendPhase cb.2 now key language (emptyFallbackSimple language) backend
            (r.1, .ok r.2)
    | none =>
        let cb := isCircuitBreakerOpen st now
        if cb.1 then (cb.2, .ok ⟨unavailableFallback language, language, .breakerOpen⟩)
        else
          let r := backendPhase cb.2 now key language (emptyFallbackSimple language) backend
          (r.1, .ok r.2)

/-- One inbound reply request of a trace. -/
structure AiCall where
  now : ℕ
  userId : String
  msg : String
  hasLead : Bool
  backend : Except Unit String

/-- Run a trace of history-aware reply requests, collecting the path each
request took. -/
def runCalls (st : AiState) (calls : List AiCall) : AiState × List AiPath :=
  calls.foldl
    (fun acc call =>
      let r := generateAiReplyWithHistory acc.1 call.now call.userId call.msg
        call.hasLead call.backend
      match r.2 with
      | .ok rep => (r.1, acc.2 ++ [rep.path])
      | .error _ => (r.1, acc.2))
    (st, [])

/-- Length of the longest run of consecutive backend failures in a trace. -/
def maxErrorRun (l : List (Except Unit String)) : ℕ :=
  (l.foldl
    (fun acc e =>
      match e with
      | .error _ => (max acc.1 (acc.2 + 1), acc.2 + 1)
      | .ok _ => (acc.1, 0))
    ((0 : ℕ), (0 : ℕ))).1

/-! ## Conversation state machine (core/conversation.ts) -/

inductive Stage where
  | ask_item
  | ask_name
  | ask_phone
  | ask_email
  | ask_address
  | show_order_summary
  | confirm_order
  | completed
  | processing_order
  deriving Repr, DecidableEq

structure OrderItem where
  productId : String
  productName : String
  quantity : ℚ
  price : ℚ
  deriving Repr, DecidableEq

structure PendingOrder where
  items : List OrderItem
  total : ℚ
  deriving Repr, DecidableEq

/-- Entry of `lastShownProducts` (services/leads-supabase.ts
`ProductInfo`); the price field is defensively coalesced with `|| 0`
wherever it is read, so it is carried as an optional value. -/
structure ProductInfo where
  id : String
  name : String
  price : Option ℚ
  similarity : ℚ
  deriving Repr, DecidableEq

/-- The fields of a retrieved product that the conversation layer reads. -/
structure RetrievedProduct where
  id : String
  name : String
  price : Option ℚ
  similarity : ℚ
  deriving Repr, DecidableEq

structure LeadDoc where
  item : Option String := none
  name : Option String := none
  phone : Option String := none
  email : Option String := none
  address : Option String := none
  stage : Stage := .ask_item
  pendingOrder : Option PendingOrder := none
  lastOrderId : Option String := none
  lastShownProducts : Option (List ProductInfo) := none
  deriving Repr, DecidableEq

/-- The lead created on first contact (`getOrCreateLead` insert:
`{ user_id, stage: 'ask_item' }`). -/
def initialLead : LeadDoc := {}

/-- JavaScript truthiness of an optional string field. -/
def truthyS : Option String → Bool
  | some s => s.length ≠ 0
  | none => false

/-- `lead.pendingOrder && lead.pendingOrder.items && items.length > 0`. -/
def pendingNonempty : Option PendingOrder → Bool
  | some po => !po.items.isEmpty
  | none => false

/-- An ASCII apostrophe, kept out of string literals. -/
def apos : String := String.mk [Char.ofNat 39]

/-! ### Message-shape predicates -/

/-- The greeting alternatives of the `looksLikeGreeting` regex that are
plain literals. -/
def simpleGreetings : List String :=
  ["hi", "hello", "hey", "yo", "sup", "hola", "bonjour", "សួស្តី"]

/-- `[!.,\s]*$` — the permitted tail after a greeting. -/
def greetingTailOk (l : List Char) : Bool :=
  l.all (fun c => c = '!' || c = '.' || c = ',' || c.isWhitespace)

def goodGreetingVariants : List String := ["morning", "afternoon", "evening"]

/-- `good\s*(morning|afternoon|evening)` followed by the permitted tail. -/
def goodGreeting (l : List Char) : Bool :=
  match matchLead "good".data l with
  | none => false
  | some r1 =>
      let r2 := r1.dropWhile Char.isWhitespace
      goodGreetingVariants.any fun v =>
        match matchLead v.data r2 with
        | some r3 => greetingTailOk r3
        | none => false

/-- `looksLikeGreeting` from the `ask_item` branch: the anchored greeting
regex on the lowercased message, or a message shorter than 2 characters. -/
def looksLikeGreeting (msg : String) : Bool :=
  let l := (jsLower msg).data
  (simpleGreetings.any fun g =>
      match matchLead g.data l with
      | some rest => greetingTailOk rest
      | none => false) ||
    goodGreeting l || msg.length < 2

/-- `lowerMsg.includes(keyword)` — substring containment. -/
def containsSeq (hay needle : List Char) : Bool :=
  match hay with
  | [] => needle.isEmpty
  | _ :: t => (matchLead needle hay).isSome || containsSeq t needle

/-- The `confirmKeywords` list from the general-chat path. -/
def confirmKeywords : List String :=
  ["i" ++ apos ++ "ll take", "i will take", "i want this", "i want that",
   "buy this", "buy that", "i take", "yes", "confirm"]

/-- `isLikelyConfirming`: some confirm keyword occurs in the lowercased
message and the message is under 100 characters. -/
def isLikelyConfirming (msg : String) : Bool :=
  let lower := jsLower msg
  (confirmKeywords.any fun k => containsSeq lower.data k.data) && lower.length < 100

def boundaryBefore : Option Char → Bool
  | none => true
  | some c => !isWordChar c

def boundaryAfterOk : List Char → Bool
  | [] => true
  | c :: _ => !isWordChar c

/-- Token match at the head of the text with a trailing word boundary. -/
def tokenAtHead (t hay : List Char) : Bool :=
  match matchLead t hay with
  | some rest => boundaryAfterOk rest
  | none => false

/-- `\btoken\b` occurs somewhere in the text. -/
def hasWordToken (t : List Char) : Option Char → List Char → Bool
  | prev, [] => boundaryBefore prev && tokenAtHead t []
  | prev, c :: cs =>
      (boundaryBefore prev && tokenAtHead t (c :: cs)) || hasWordToken t (some c) cs

/-- Characters the JavaScript regex `.` does not match. -/
def isDotExcluded (c : Char) : Bool :=
  c = Char.ofNat 10 || c = Char.ofNat 13 || c.toNat = 0x2028 || c.toNat = 0x2029

/-- `.*have\b` starting at the head of the text. -/
def dotStarHave : List Char → Bool
  | [] => false
  | c :: cs =>
      tokenAtHead "have".data (c :: cs) || (!isDotExcluded c && dotStarHave cs)

/-- `\bwhat.*have\b` occurs somewhere in the text. -/
def whatThenHave : Option Char → List Char → Bool
  | _, [] => false
  | prev, c :: cs =>
      (boundaryBefore prev &&
        (match matchLead "what".data (c :: cs) with
         | some rest => dotStarHave rest
         | none => false)) || whatThenHave (some c) cs

/-- The literal word alternatives of the `isProductQuery` regex. -/
def productTokens : List String :=
  ["product", "shoe", "sneaker", "item", "show", "looking for", "buy",
   "purchase", "available", "pant", "shirt", "jacket", "dress", "wear",
   "similar", "like this"]

/-- `isProductQuery` from the general-chat path. -/
def isProductQuery (msg : String) : Bool :=
  let lower := (jsLower msg).data
  (productTokens.any fun t => hasWordToken t.data none lower) ||
    whatThenHave none lower

/-! ### Prompt and formatter texts

Embedded from core/prompts.ts (the bilingual `prompts` table read by
`getPrompts(language)` and the `orderConfirmedPrompt(orderId, total,
language)` template) and from formatters/order-summary.ts
(`formatOrderSummary` and `formatCustomerInfoReconfirm`, each dispatching
on the language to an English or a Khmer template joined with
newlines). -/

/-- JS `x || d` on a nullable string: null, undefined and the empty
string are all falsy and fall back to the default — the
`customerName || 'N/A'` reads of formatters/order-summary.ts. -/
def strOr (x : Option String) (d : String) : String :=
  match x with
  | some s => if s.length = 0 then d else s
  | none => d

/-- JS `Number.prototype.toFixed(2)` on a non-negative exact rational:
the integer `n` minimising the distance from `n / 100` to the value, ties
towards the larger `n` (so `⌊100·x + 1/2⌋`), printed with two decimal
digits. -/
def toFixed2NN (x : ℚ) : String :=
  let n := (200 * x.num.toNat + x.den) / (2 * x.den)
  toString (n / 100) ++ "." ++ (if n % 100 < 10 then "0" else "") ++ toString (n % 100)

/-- JS `Number.prototype.toFixed(2)`: a negative value is rendered as the
minus sign followed by the rendering of its absolute value. -/
def toFixed2 (x : ℚ) : String :=
  if x < 0 then "-" ++ toFixed2NN (-x) else toFixed2NN x

structure Prompts where
  askItem : String
  askName : String
  askPhone : String
  askEmail : String
  askAddress : String
  done : String
  orderCancelled : String
  deriving Repr, DecidableEq

/-- The `prompts.en` entry of the bilingual prompt table in
core/prompts.ts. -/
def prompts_en : Prompts :=
  { askItem := "What product are you looking for today? 💬 You can also send me a photo and I" ++ apos ++ "ll find similar items!"
    askName := "Perfect! To complete your order, I" ++ apos ++ "ll need some information.\n\nWhat" ++ apos ++ "s your full name?"
    askPhone := "Thanks! What" ++ apos ++ "s your phone number?"
    askEmail := "And your email? (optional - press . to skip)"
    askAddress := "Finally, what" ++ apos ++ "s your delivery address?"
    done := "Thank you! Your order has been received. We" ++ apos ++ "ll contact you shortly for payment and delivery. 🎉"
    orderCancelled := "No problem! Let me know if you" ++ apos ++ "d like to order something else. 😊" }

/-- The `prompts.km` entry of the bilingual prompt table in
core/prompts.ts. -/
def prompts_km : Prompts :=
  { askItem := "តើអ្នកកំពុងស្វែងរកផលិតផលអ្វី? 💬 អ្នកក៏អាចផ្ញើរូបភាពមកខ្ញុំ ហើយខ្ញុំនឹងស្វែងរកផលិតផលស្រដៀងគ្នា!"
    askName := "ល្អណាស់! ដើម្បីបញ្ចប់ការបញ្ជាទិញរបស់អ្នក ខ្ញុំត្រូវការព័ត៌មានមួយចំនួន។\n\nតើអ្នកឈ្មោះអ្វី?"
    askPhone := "អរគុណ! តើលេខទូរសព័ទ្ធរបស់អ្នកជាអ្វី?"
    askEmail := "ហើយអ៊ីមែលរបស់អ្នក? (ស្រេចចិត្ត - ចុច . ដើម្បីរំលង)"
    askAddress := "ចុងក្រោយ តើអាសយដ្ឋានដឹកជញ្ជូនរបស់អ្នកនៅណា?"
    done := "អរគុណ! ការបញ្ជាទិញរបស់អ្នកត្រូវបានទទួល។ យើងនឹងទាក់ទងអ្នកក្នុងពេលឆាប់ៗនេះសម្រាប់ការទូទាត់ និងការដឹកជញ្ជូន។ 🎉"
    orderCancelled := "គ្មានបញ្ហា! សូមប្រាប់ខ្ញុំប្រសិនបើអ្នកចង់បញ្ជាផលិតផលផ្សេងទៀត។ 😊" }

/-- `getPrompts(language)` from core/prompts.ts: `prompts[language]`. -/
def getPrompts : Language → Prompts
  | .en => prompts_en
  | .km => prompts_km

/-- The `items.forEach` lines of the order-summary templates in
formatters/order-summary.ts: per item, the line
`${index + 1}. ${productName}` followed by
`   <label>: ${quantity} × $${price.toFixed(2)} = $${itemTotal.toFixed(2)}`
with `itemTotal = price * quantity`; the quantity label is the only text
the English and Khmer loops do not share. -/
def summaryItemLines (qtyLabel : String) : ℕ → List OrderItem → List String
  | _, [] => []
  | i, it :: rest =>
      (toString (i + 1) ++ ". " ++ it.productName) ::
        ("   " ++ qtyLabel ++ ": " ++ toString it.quantity ++ " × $" ++
          toFixed2 it.price ++ " = $" ++ toFixed2 (it.price * it.quantity)) ::
        summaryItemLines qtyLabel (i + 1) rest

/-- `formatOrderSummaryEnglish` from formatters/order-summary.ts. -/
def formatOrderSummaryEnglish (items : List OrderItem) (total : ℚ)
    (customerName customerPhone customerEmail customerAddress : Option String) : String :=
  String.intercalate "\n"
    (["📋 **ORDER SUMMARY**", "", "**Items:**"] ++
      summaryItemLines "Qty" 0 items ++
      ["", "**Total: $" ++ toFixed2 total ++ "**", "", "**Delivery Information:**",
        "👤 Name: " ++ strOr customerName "N/A",
        "📞 Phone: " ++ strOr customerPhone "N/A"] ++
      (if truthyS customerEmail then ["📧 Email: " ++ customerEmail.getD ""] else []) ++
      ["📍 Address: " ++ strOr customerAddress "N/A", "",
        "Please review your order carefully.",
        "Reply with **YES** to confirm or **EDIT** to make changes."])

/-- `formatOrderSummaryKhmer` from formatters/order-summary.ts. -/
def formatOrderSummaryKhmer (items : List OrderItem) (total : ℚ)
    (customerName customerPhone customerEmail customerAddress : Option String) : String :=
  String.intercalate "\n"
    (["📋 **សេចក្តីសង្ខេបការបញ្ជាទិញ**", "", "**ផលិតផល:**"] ++
      summaryItemLines "បរិមាណ" 0 items ++
      ["", "**សរុប: $" ++ toFixed2 total ++ "**", "", "**ព័ត៌មានដឹកជញ្ជូន:**",
        "👤 ឈ្មោះ: " ++ strOr customerName "មិនមាន",
        "📞 លេខទូរស័ព្ទ: " ++ strOr customerPhone "មិនមាន"] ++
      (if truthyS customerEmail then ["📧 អ៊ីមែល: " ++ customerEmail.getD ""] else []) ++
      ["📍 អាសយដ្ឋាន: " ++ strOr customerAddress "មិនមាន", "",
        "សូមពិនិត្យមើលការបញ្ជាទិញរបស់អ្នកដោយប្រុងប្រយ័ត្ន។",
        "ឆ្លើយតប **YES** ដើម្បីបញ្ជាក់ ឬ **EDIT** ដើម្បីកែប្រែ។"])

/-- `formatOrderSummary` from formatters/order-summary.ts: dispatches on
the language to the English or Khmer template (nullable customer fields
fall back to the not-available placeholder; the email line appears only
when the email is truthy). -/
def formatOrderSummary (items : List OrderItem) (total : ℚ)
    (customerName customerPhone customerEmail customerAddress : Option String) :
    Language → String
  | .km => formatOrderSummaryKhmer items total customerName customerPhone
      customerEmail customerAddress
  | .en => formatOrderSummaryEnglish items total customerName customerPhone
      customerEmail customerAddress

/-- `formatCustomerInfoReconfirmEnglish` from
formatters/order-summary.ts. -/
def formatCustomerInfoReconfirmEnglish (name phone : String) (email : Option String)
    (address : String) : String :=
  String.intercalate "\n"
    (["✅ I found your saved information:", "",
        "👤 Name: " ++ name,
        "📞 Phone: " ++ phone] ++
      (if truthyS email then ["📧 Email: " ++ email.getD ""] else []) ++
      ["📍 Address: " ++ address, "",
        "Would you like to use this information?",
        "Reply **YES** to use it, or **UPDATE** to change it."])

/-- `formatCustomerInfoReconfirmKhmer` from
formatters/order-summary.ts. -/
def formatCustomerInfoReconfirmKhmer (name phone : String) (email : Option String)
    (address : String) : String :=
  String.intercalate "\n"
    (["✅ ខ្ញុំបានរកឃើញព័ត៌មានដែលបានរក្សាទុករបស់អ្នក:", "",
        "👤 ឈ្មោះ: " ++ name,
        "📞 លេខទូរស័ព្ទ: " ++ phone] ++
      (if truthyS email then ["📧 អ៊ីមែល: " ++ email.getD ""] else []) ++
      ["📍 អាសយដ្ឋាន: " ++ address, "",
        "តើអ្នកចង់ប្រើព័ត៌មាននេះទេ?",
        "ឆ្លើយតប **YES** ដើម្បីប្រើ ឬ **UPDATE** ដើម្បីកែប្រែ។"])

/-- `formatCustomerInfoReconfirm` from formatters/order-summary.ts:
dispatches on the language to the English or Khmer template. -/
def formatCustomerInfoReconfirm (name phone : String) (email : Option String)
    (address : String) : Language → String
  | .km => formatCustomerInfoReconfirmKhmer name phone email address
  | .en => formatCustomerInfoReconfirmEnglish name phone email address

/-- `orderConfirmedPrompt(orderId, total, language)` from
core/prompts.ts. -/
def orderConfirmedPrompt (orderId : String) (total : ℚ) : Language → String
  | .km => "✅ ការបញ្ជាទិញត្រូវបានបញ្ជាក់!\n\nលេខកូដការបញ្ជាទិញ: " ++ orderId ++
      "\nសរុប: $" ++ toFixed2 total ++
      "\n\nយើងនឹងទាក់ទងអ្នកក្នុងពេលឆាប់ៗនេះសម្រាប់ការទូទាត់ និងការដឹកជញ្ជូន។ អរគុណ! 🎉"
  | .en => "✅ Order confirmed!\n\nOrder ID: " ++ orderId ++ "\nTotal: $" ++
      toFixed2 total ++ "\n\nWe" ++ apos ++
      "ll contact you shortly for payment and delivery. Thank you! 🎉"

def confirmOrderStageMsg : Language → String
  | .km => "តើអ្នកបញ្ជាក់ការបញ្ជាទិញនេះមែនទេ? ឆ្លើយតប **YES** ដើម្បីបញ្ជាក់។"
  | .en => "Do you confirm this order? Reply **YES** to confirm."

def summaryRetryMsg : Language → String
  | .km => "សូមឆ្លើយតប **YES** ដើម្បីបន្ត ឬ **EDIT** ដើម្បីកែប្រែព័ត៌មាន។"
  | .en => "Please reply **YES** to continue or **EDIT** to change information."

def orderIssueMsg : String :=
  "Sorry, there was an issue with your order. Please start again."

/-- The generic transaction-failure message of the order-commit catch
block in core/conversation.ts. -/
def orderErrorMsg : String :=
  "Sorry, there was an error processing your order. Please try again or contact support."

def confirmRetryMsg : String :=
  "Please reply with YES to confirm or NO to cancel."

def imageAskedContext (msg : String) : String :=
  "[User sent an image and asked: \"" ++ msg ++ "\"]"

def imageOnlyContext : String :=
  "[User sent an image] Looking for products similar to this image"

/-! ### The turn function -/

/-- Results of the external calls one turn can make.  `phoneNorm` is
`normalizePhone(...).e164` (libphonenumber); `emailValid` is the zod
email-schema verdict; `rag` the outcome of whichever retrieval strategy
runs; `commitCustomer`/`commitOrder` the order-commit steps that the
`try/catch` in the `confirm_order` branch guards; `aiReply` the text the
reply pipeline returns; `showCarousel`/`carousel` the carousel decision of
lib/ai-product-matcher.  Lead updates and chat-history writes are modelled
as succeeding. -/
structure TurnOracle where
  phoneNorm : Option String := none
  emailValid : Bool := true
  hasImage : Bool := false
  rag : Except Unit (List RetrievedProduct) := .ok []
  commitCustomer : Except Unit String := .ok "customer-1"
  commitOrder : Except Unit (String × ℚ) := .ok ("order-1", 0)
  aiReply : String := "ok"
  showCarousel : Bool := false
  carousel : List RetrievedProduct := []

inductive TurnResult where
  | reply (text : String) (products : List RetrievedProduct)
  | thrown
  deriving Repr, DecidableEq

/-- `lastShownProducts` storage map:
`{ id, name, price: p.price || 0, similarity }`. -/
def storeShown (p : RetrievedProduct) : ProductInfo :=
  ⟨p.id, p.name, some (p.price.getD 0), p.similarity⟩

/-- The general-chat tail of `handleConversation` (deictic order
short-circuit, RAG strategy selection, `lastShownProducts` persistence,
reply generation, carousel decision).  `lead` is the snapshot read by the
branch conditions; `db` is the stored lead including updates already made
earlier in the turn. -/
def generalChat (lead db : LeadDoc) (msg : String) (o : TurnOracle)
    (language : Language) : LeadDoc × TurnResult :=
  let conf := isLikelyConfirming msg
  let productQuery := isProductQuery msg
  let hasImage := o.hasImage
  let shouldDoRAG := !conf && (productQuery || hasImage)
  let hasProductsToConfirm :=
    match lead.lastShownProducts with
    | some (_ :: _) => true
    | _ => false
  if conf && hasProductsToConfirm then
    let ps := lead.lastShownProducts.getD []
    let orderItems := (ps.take 1).map fun p => OrderItem.mk p.id p.name 1 (p.price.getD 0)
    let total := orderItems.foldl (fun s it => s + it.price * it.quantity) 0
    let db1 := { db with pendingOrder := some ⟨orderItems, total⟩ }
    let hasCompleteInfo := truthyS lead.name && truthyS lead.phone && truthyS lead.address
    if hasCompleteInfo then
      ({ db1 with stage := .show_order_summary },
        .reply (formatCustomerInfoReconfirm (lead.name.getD "") (lead.phone.getD "")
          lead.email (lead.address.getD "") language) [])
    else
      ({ db1 with stage := .ask_name }, .reply (getPrompts language).askName [])
  else
    let allProducts : Option (List RetrievedProduct) :=
      if shouldDoRAG then
        match o.rag with
        | .ok ps => some ps
        | .error _ => none
      else none
    let gotProducts :=
      match allProducts with
      | some (_ :: _) => true
      | _ => false
    let db1 :=
      match allProducts with
      | some (p :: rest) =>
          { db with lastShownProducts := some (((p :: rest).take 5).map storeShown) }
      | _ => db
    let contextualMessage :=
      if hasImage && gotProducts then
        if msg.length ≠ 0 then imageAskedContext msg else imageOnlyContext
      else msg
    if (jsTrim contextualMessage).length = 0 then (db1, .thrown)
    else
      let productsToDisplay :=
        if gotProducts && o.showCarousel then o.carousel else []
      (db1, .reply o.aiReply productsToDisplay)

/-- `handleConversation` from core/conversation.ts, one turn: normalize
the message, branch on the lead's stage, and either run the stage
transition or fall through to the general-chat tail.  `thrown` marks the
executions in which a zod schema `.parse` (or the reply pipeline's input
validation) throws and the turn rejects. -/
def normMsg (msg0 : String) : String :=
  if (jsTrim msg0).length ≤ 800 then jsTrim msg0 else jsTrim (msg0.take 800)

def handleConversation (lead : LeadDoc) (msg0 : String) (o : TurnOracle) :
    LeadDoc × TurnResult :=
  let msg := normMsg msg0
  let language := detectLanguage msg
  let prompts := getPrompts language
  match lead.stage with
  | .ask_item =>
      if looksLikeGreeting msg then (lead, .reply prompts.askItem [])
      else generalChat lead { lead with item := some msg } msg o language
  | .ask_name =>
      let parts := ((jsSplit ',' msg).map jsTrim).filter fun p => p.length ≠ 0
      if 3 ≤ parts.length then
        let name := parts.getD 0 ""
        let phone := parts.getD 1 ""
        let address := String.intercalate ", " (parts.drop 2)
        let normalizedPhone := o.phoneNorm.getD phone
        if pendingNonempty lead.pendingOrder then
          ({ lead with
              name := some name, phone := some normalizedPhone, email := none,
              address := some address, stage := .show_order_summary },
            .reply (formatOrderSummary ((lead.pendingOrder.map PendingOrder.items).getD [])
              ((lead.pendingOrder.map PendingOrder.total).getD 0) (some name)
              (some normalizedPhone) none (some address) language) [])
        else
          ({ lead with
              name := some name, phone := some normalizedPhone, email := none,
              address := some address, stage := .completed },
            .reply prompts.done [])
      else
        if msg.length ≤ 120 then
          ({ lead with name := some msg, stage := .ask_phone }, .reply prompts.askPhone [])
        else (lead, .thrown)
  | .ask_phone =>
      let stored := jsTrim (o.phoneNorm.getD msg)
      if stored.length ≤ 32 then
        ({ lead with phone := some stored, stage := .ask_email }, .reply prompts.askEmail [])
      else (lead, .thrown)
  | .ask_email =>
      let skipEmail := jsTrim msg = "." || containsSeq (jsLower msg).data "skip".data
      if skipEmail then
        ({ lead with email := none, stage := .ask_address }, .reply prompts.askAddress [])
      else if o.emailValid then
        ({ lead with email := some (jsTrim msg), stage := .ask_address },
          .reply prompts.askAddress [])
      else (lead, .thrown)
  | .ask_address =>
      if msg.length ≤ 300 then
        if pendingNonempty lead.pendingOrder then
          ({ lead with address := some msg, stage := .show_order_summary },
            .reply (formatOrderSummary ((lead.pendingOrder.map PendingOrder.items).getD [])
              ((lead.pendingOrder.map PendingOrder.total).getD 0) lead.name
              lead.phone lead.email (some msg) language) [])
        else
          ({ lead with address := some msg, stage := .completed }, .reply prompts.done [])
      else (lead, .thrown)
  | .show_order_summary =>
      let lower := jsTrim (jsLower msg)
      if ["yes", "confirm", "ok"].contains lower then
        ({ lead with stage := .confirm_order }, .reply (confirmOrderStageMsg language) [])
      else if ["edit", "change", "update"].contains lower then
        ({ lead with stage := .ask_name }, .reply prompts.askName [])
      else (lead, .reply (summaryRetryMsg language) [])
  | .confirm_order =>
      let lower := jsTrim (jsLower msg)
      if ["yes", "confirm", "ok"].contains lower then
        if !(lead.pendingOrder.isSome && truthyS lead.name && truthyS lead.phone &&
            truthyS lead.address) then
          ({ lead with stage := .completed, pendingOrder := none },
            .reply orderIssueMsg [])
        else
          match o.commitCustomer with
          | .error _ => (lead, .reply orderErrorMsg [])
          | .ok _ =>
              match lead.pendingOrder with
              | none => (lead, .reply orderErrorMsg [])
              | some po =>
                  if po.items.isEmpty then (lead, .reply orderErrorMsg [])
                  else
                    match o.commitOrder with
                    | .error _ => (lead, .reply orderErrorMsg [])
                    | .ok (oid, tot) =>
                        ({ lead with
                            stage := .completed, lastOrderId := some oid,
                            pendingOrder := none },
                          .reply (orderConfirmedPrompt oid tot language) [])
      else if ["no", "cancel"].contains lower then
        ({ lead with stage := .completed, pendingOrder := none },
          .reply prompts.orderCancelled [])
      else (lead, .reply confirmRetryMsg [])
  | .completed => generalChat lead lead msg o language
  | .processing_order => generalChat lead lead msg o language

/-- Lead states reachable by sequences of `handleConversation` turns from
first contact. -/
inductive Reachable : LeadDoc → Prop
  | init : Reachable initialLead
  | step (l : LeadDoc) (msg : String) (o : TurnOracle) :
      Reachable l → Reachable (handleConversation l msg o).1

def isErr {ε α : Type} : Except ε α → Bool
  | .error _ => true
  | .ok _ => false

/-! ## Claim C6 — retrieval merge algebra -/

/-- C6: merging by product identity keeps, per product id, the maximum
similarity over all sources; a merged score is never below any source
score for that id; the merged id ↦ score view is invariant under
reordering of the concatenated input result lists; the final list is
sorted descending by score and truncated to `matchCount`; and
`retrieveSimilarContext` returns exactly that ranked truncation when both
searches succeed. -/
theorem c6_merge_algebra :
    (∀ (hybrid vec : List RagRow) (i : String),
      lookupScore (byId (hybrid ++ vec)) i = listMax (scoresOf (hybrid ++ vec) i)) ∧
    (∀ (hybrid vec : List RagRow) (r : RagRow), r ∈ hybrid ++ vec →
      ∃ s, lookupScore (byId (hybrid ++ vec)) r.id = some s ∧ effScore r ≤ s) ∧
    (∀ (l l' : List RagRow), l.Perm l' → ∀ i,
      lookupScore (byId l) i = lookupScore (byId l') i) ∧
    (∀ (hybrid vec : List RagRow) (matchCount : ℕ),
      (mergeRank hybrid vec matchCount).Pairwise
        (fun a b => effScore b ≤ effScore a) ∧
      (mergeRank hybrid vec matchCount).length ≤ matchCount) ∧
    (∀ (o : SearchOutcomes) (matchCount : ℕ) (e : List ℚ) (h v : List RagRow),
      o.embed = .ok e → o.hybrid = .ok h → o.vec = .ok v →
      retrieveSimilarContext o matchCount = .ok (mergeRank h v matchCount)) := by
  refine ⟨fun h v i => lookupScore_byId _ i, ?_, ?_, ?_, ?_⟩
  · intro h v r hr
    have hsc : effScore r ∈ scoresOf (h ++ v) r.id := by
      apply List.mem_map_of_mem
      exact List.mem_filter.mpr ⟨hr, by simp⟩
    obtain ⟨s, hs, hle⟩ := listMax_mem_le hsc
    exact ⟨s, by rw [lookupScore_byId]; exact hs, hle⟩
  · exact fun l l' hp i => lookupScore_byId_perm hp i
  · exact fun h v mc => ⟨mergeRank_sorted h v mc, mergeRank_length h v mc⟩
  · intro o mc e h v he hh hv
    rcases o with ⟨e', h', v'⟩
    simp only at he hh hv
    subst he; subst hh; subst hv
    rfl

/-- Witness for C6 at a concrete input: product p1 appears in both result
sets with scores 1/2 and 7/10; the merge keeps 7/10 (≥ both), is stable
under swapping the lists, and the final list is sorted and truncated. -/
theorem c6_merge_algebra_witness :
    lookupScore (byId ([⟨"p1", "A", some (1/2)⟩] ++
        [⟨"p1", "A", some (7/10)⟩, ⟨"p2", "B", some (3/10)⟩])) "p1" =
      listMax (scoresOf ([⟨"p1", "A", some (1/2)⟩] ++
        [⟨"p1", "A", some (7/10)⟩, ⟨"p2", "B", some (3/10)⟩]) "p1") ∧
    (⟨"p1", "A", some (1/2)⟩ : RagRow) ∈
      ([⟨"p1", "A", some (1/2)⟩] ++
        [⟨"p1", "A", some (7/10)⟩, ⟨"p2", "B", some (3/10)⟩]) ∧
    (∃ s, lookupScore (byId ([⟨"p1", "A", some (1/2)⟩] ++
        [⟨"p1", "A", some (7/10)⟩, ⟨"p2", "B", some (3/10)⟩])) "p1" = some s ∧
      effScore ⟨"p1", "A", some (1/2)⟩ ≤ s) ∧
    ([⟨"p1", "A", some (1/2)⟩, ⟨"p2", "B", some (3/10)⟩] : List RagRow).Perm
      [⟨"p2", "B", some (3/10)⟩, ⟨"p1", "A", some (1/2)⟩] ∧
    (∀ i, lookupScore (byId [⟨"p1", "A", some (1/2)⟩, ⟨"p2", "B", some (3/10)⟩]) i =
      lookupScore (byId [⟨"p2", "B", some (3/10)⟩, ⟨"p1", "A", some (1/2)⟩]) i) ∧
    retrieveSimilarContext
        ⟨.ok [], .ok [⟨"p1", "A", some (1/2)⟩],
          .ok [⟨"p1", "A", some (7/10)⟩, ⟨"p2", "B", some (3/10)⟩]⟩ 1 =
      .ok (mergeRank [⟨"p1", "A", some (1/2)⟩]
        [⟨"p1", "A", some (7/10)⟩, ⟨"p2", "B", some (3/10)⟩] 1) := by
  refine ⟨c6_merge_algebra.1 _ _ _, by simp,
    c6_merge_algebra.2.1 [⟨"p1", "A", some (1/2)⟩]
      [⟨"p1", "A", some (7/10)⟩, ⟨"p2", "B", some (3/10)⟩]
      ⟨"p1", "A", some (1/2)⟩ (by simp), List.Perm.swap _ _ _,
    c6_merge_algebra.2.2.1 _ _ (List.Perm.swap _ _ _), ?_⟩
  exact c6_merge_algebra.2.2.2.2 _ 1 [] _ _ rfl rfl rfl

/-! ## Claim C5 — retrieval partial-failure tolerance -/

/-- C5 counterexample: with the hybrid branch failing and the pure-vector
branch returning one candidate, `retrieveSimilarContext` throws instead of
returning the surviving branch's candidates (the source rethrows `e1`
before looking at the vector results). -/
theorem c5_counterexample :
    isErr (retrieveSimilarContext
      ⟨.ok [], .error (), .ok [⟨"p1", "A", some (7/10)⟩]⟩ 5) = true ∧
    (SearchOutcomes.vec ⟨.ok [], .error (), .ok [⟨"p1", "A", some (7/10)⟩]⟩) =
      .ok [⟨"p1", "A", some (7/10)⟩] := by
  exact ⟨rfl, rfl⟩

theorem generalChat_rag_error (lead db : LeadDoc) (msg : String) (o : TurnOracle)
    (lang : Language) :
    generalChat lead db msg { o with rag := .error () } lang =
      generalChat lead db msg { o with rag := .ok [] } lang := by
  unfold generalChat
  by_cases hc : (isLikelyConfirming msg &&
      match lead.lastShownProducts with
      | some (_ :: _) => true
      | _ => false) = true
  · simp only [hc, if_true]
  · simp only [hc, if_false, Bool.not_eq_true] at *
    by_cases hr : (!isLikelyConfirming msg && (isProductQuery msg || o.hasImage)) = true <;>
      simp [hr, hc]

/-- C5 corrected: `retrieveSimilarContext` itself aborts (throws) whenever
either parallel search branch fails; partial-failure tolerance lives at
the call sites — `handleConversation` catches the error and proceeds
exactly as if retrieval had returned zero candidates. -/
theorem c5_branch_failure_aborts_but_caller_tolerates :
    (∀ (o : SearchOutcomes) (matchCount : ℕ),
      isErr o.hybrid = true ∨ isErr o.vec = true →
      isErr (retrieveSimilarContext o matchCount) = true) ∧
    (∀ (lead : LeadDoc) (msg0 : String) (o : TurnOracle),
      handleConversation lead msg0 { o with rag := .error () } =
        handleConversation lead msg0 { o with rag := .ok [] }) := by
  constructor
  · intro o mc h
    rcases o with ⟨e, hy, ve⟩
    cases e with
    | error _ => rfl
    | ok _ =>
        cases hy with
        | error _ => rfl
        | ok _ =>
            cases ve with
            | error _ => rfl
            | ok _ => simp [isErr] at h
  · intro lead msg0 o
    unfold handleConversation
    cases lead.stage <;> simp only [] <;>
      first
        | rfl
        | (exact generalChat_rag_error _ _ _ o _)
        | (split <;> first
            | rfl
            | (exact generalChat_rag_error _ _ _ o _))

/-- Witness for C5's corrected statement at concrete inputs. -/
theorem c5_witness :
    (isErr (SearchOutcomes.hybrid ⟨.ok [], .error (), .ok []⟩) = true ∨
      isErr (SearchOutcomes.vec ⟨.ok [], .error (), .ok []⟩) = true) ∧
    isErr (retrieveSimilarContext ⟨.ok [], .error (), .ok []⟩ 5) = true ∧
    handleConversation initialLead "shoe" { rag := .error () } =
      handleConversation initialLead "shoe" { rag := .ok [] } :=
  ⟨Or.inl rfl,
    c5_branch_failure_aborts_but_caller_tolerates.1 _ 5 (Or.inl rfl),
    c5_branch_failure_aborts_but_caller_tolerates.2 initialLead "shoe" {}⟩

/-! ## Claim C2 — order commit rollback -/

/-- C2 counterexample: when the items insert fails and the rollback delete
also fails (`deleteError` is logged as "Failed to rollback order!"), the
just-created order row is still in the orders table after `createOrder`
throws. -/
theorem c2_counterexample :
    isErr (createOrder ⟨[], []⟩ true "c1" [⟨"p1", 1, 10⟩]
      ⟨.ok "o1", false, false⟩).2 = true ∧
    hasOrder (createOrder ⟨[], []⟩ true "c1" [⟨"p1", 1, 10⟩]
      ⟨.ok "o1", false, false⟩).1 "o1" = true := by
  exact ⟨rfl, rfl⟩

/-- C2 corrected: if the order insert succeeds, the items insert fails and
the rollback delete succeeds, then `createOrder` throws and the
just-created order record no longer exists in the orders store; the
all-or-nothing guarantee holds only when the rollback delete itself
succeeds. -/
theorem c2_rollback_removes_order (db : OrdersDb) (customerId : String)
    (items : List OrderItemIn) (o : CreateOrderOutcome) (oid : String)
    (hins : o.insertOrder = .ok oid) (hitems : o.itemsOk = false)
    (hdel : o.deleteOk = true) (htenant : items.isEmpty = false) :
    isErr (createOrder db true customerId items o).2 = true ∧
    hasOrder (createOrder db true customerId items o).1 oid = false := by
  unfold createOrder
  simp only [htenant, hins, hitems, hdel, not_true, if_false,
    Bool.false_eq_true, if_true, ite_false, ite_true]
  constructor
  · rfl
  · simp only [hasOrder, List.any_eq_false, List.mem_filter,
      decide_eq_true_eq, and_imp]
    intro r _ hne
    simpa using hne

/-- Witness for C2's corrected statement at a concrete input. -/
theorem c2_witness :
    (CreateOrderOutcome.insertOrder ⟨.ok "o1", false, true⟩ = .ok "o1") ∧
    isErr (createOrder ⟨[], []⟩ true "c1" [⟨"p1", 1, 10⟩]
      ⟨.ok "o1", false, true⟩).2 = true ∧
    hasOrder (createOrder ⟨[], []⟩ true "c1" [⟨"p1", 1, 10⟩]
      ⟨.ok "o1", false, true⟩).1 "o1" = false := by
  refine ⟨rfl, ?_⟩
  exact c2_rollback_removes_order ⟨[], []⟩ "c1" [⟨"p1", 1, 10⟩]
    ⟨.ok "o1", false, true⟩ "o1" rfl rfl rfl rfl

/-! ## Claim C1 — order-commit failure handling -/

/-- C1 counterexample: in stage `confirm_order` with affirmative input and
a failing find-or-create-customer step, `handleConversation` returns the
generic failure message but leaves the Lead in `confirm_order` with the
pending order still set — it is not moved to `completed` with
`pendingOrder` cleared as the claim states. -/
theorem c1_counterexample :
    (handleConversation
        { name := some "Jane", phone := some "+85512345678",
          address := some "Main St", stage := .confirm_order,
          pendingOrder := some ⟨[⟨"p1", "Shoe", 1, 10⟩], 10⟩ }
        "yes" { commitCustomer := .error () }).2 = .reply orderErrorMsg [] ∧
    (handleConversation
        { name := some "Jane", phone := some "+85512345678",
          address := some "Main St", stage := .confirm_order,
          pendingOrder := some ⟨[⟨"p1", "Shoe", 1, 10⟩], 10⟩ }
        "yes" { commitCustomer := .error () }).1.stage = .confirm_order ∧
    (handleConversation
        { name := some "Jane", phone := some "+85512345678",
          address := some "Main St", stage := .confirm_order,
          pendingOrder := some ⟨[⟨"p1", "Shoe", 1, 10⟩], 10⟩ }
        "yes" { commitCustomer := .error () }).1.pendingOrder.isSome = true ∧
    Stage.confirm_order ≠ Stage.completed :=
  ⟨rfl, rfl, rfl, by decide⟩

/-- C1 corrected: when a turn in stage `confirm_order` with affirmative
input hits a throwing find-or-create-customer or create-order step, the
user receives the generic transaction-failure message and the Lead is
left unchanged — still in `confirm_order` with the pending order intact
(the catch block performs no Lead update, so the user may retry). -/
theorem c1_commit_failure_leaves_lead_unchanged (lead : LeadDoc) (msg0 : String)
    (o : TurnOracle)
    (hstage : lead.stage = .confirm_order)
    (hyes : ["yes", "confirm", "ok"].contains (jsTrim (jsLower (normMsg msg0))) = true)
    (hinfo : (lead.pendingOrder.isSome && truthyS lead.name && truthyS lead.phone &&
      truthyS lead.address) = true)
    (hfail : isErr o.commitCustomer = true ∨ isErr o.commitOrder = true) :
    handleConversation lead msg0 o = (lead, .reply orderErrorMsg []) := by
  unfold handleConversation
  rw [hstage]
  simp only [hyes, if_true, hinfo, Bool.not_true, Bool.false_eq_true, if_false]
  have hpo : lead.pendingOrder.isSome = true := by
    have h := hinfo
    simp only [Bool.and_eq_true] at h
    exact h.1.1.1
  obtain ⟨po, hpo'⟩ := Option.isSome_iff_exists.mp hpo
  rcases hfail with hc | ho
  · cases hcc : o.commitCustomer with
    | error e => simp [hcc]
    | ok c => rw [hcc] at hc; simp [isErr] at hc
  · cases hcc : o.commitCustomer with
    | error e => simp [hcc]
    | ok c =>
        cases hco : o.commitOrder with
        | error e2 =>
            by_cases hi : po.items.isEmpty <;> simp [hcc, hco, hpo', hi]
        | ok pr => rw [hco] at ho; simp [isErr] at ho

/-- Witness for C1's corrected statement at a concrete input. -/
theorem c1_witness :
    (LeadDoc.stage
        { name := some "Jane", phone := some "+85512345678",
          address := some "Main St", stage := .confirm_order,
          pendingOrder := some ⟨[⟨"p1", "Shoe", 1, 10⟩], 10⟩ } = .confirm_order) ∧
    handleConversation
        { name := some "Jane", phone := some "+85512345678",
          address := some "Main St", stage := .confirm_order,
          pendingOrder := some ⟨[⟨"p1", "Shoe", 1, 10⟩], 10⟩ }
        "yes" { commitOrder := .error () } =
      ({ name := some "Jane", phone := some "+85512345678",
          address := some "Main St", stage := .confirm_order,
          pendingOrder := some ⟨[⟨"p1", "Shoe", 1, 10⟩], 10⟩ },
        .reply orderErrorMsg []) :=
  ⟨rfl,
    c1_commit_failure_leaves_lead_unchanged _ "yes" { commitOrder := .error () }
      rfl (by decide) (by decide) (Or.inr rfl)⟩

/-! ## Claim C3 — pendingOrder/stage invariant -/

/-- The invariant that actually holds of reachable Leads: `pendingOrder`
is cleared in `ask_item`, `completed` and `processing_order`, and any
pending order carries at least one item. -/
def Inv (l : LeadDoc) : Prop :=
  (l.stage = .ask_item → l.pendingOrder = none) ∧
  (l.stage = .completed → l.pendingOrder = none) ∧
  (l.stage = .processing_order → l.pendingOrder = none) ∧
  (∀ po, l.pendingOrder = some po → po.items ≠ [])

theorem inv_of_same_core {l l' : LeadDoc} (h : Inv l)
    (hst : l'.stage = l.stage) (hpo : l'.pendingOrder = l.pendingOrder) : Inv l' := by
  refine ⟨?_, ?_, ?_, ?_⟩
  · intro hs; rw [hpo]; exact h.1 (hst ▸ hs)
  · intro hs; rw [hpo]; exact h.2.1 (hst ▸ hs)
  · intro hs; rw [hpo]; exact h.2.2.1 (hst ▸ hs)
  · intro po hp; exact h.2.2.2 po (hpo ▸ hp)

theorem Inv.mk_of (po : Option PendingOrder) (st : Stage)
    (h1 : st = .ask_item → po = none) (h2 : st = .completed → po = none)
    (h3 : st = .processing_order → po = none)
    (h4 : ∀ p, po = some p → p.items ≠ []) (l : LeadDoc)
    (hst : l.stage = st) (hpo : l.pendingOrder = po) : Inv l := by
  refine ⟨?_, ?_, ?_, ?_⟩
  · intro hs; rw [hpo]; exact h1 (hst ▸ hs)
  · intro hs; rw [hpo]; exact h2 (hst ▸ hs)
  · intro hs; rw [hpo]; exact h3 (hst ▸ hs)
  · intro p hp; exact h4 p (hpo ▸ hp)

theorem fst_ite_pair {α β : Type} (c : Prop) [inst : Decidable c] (a : α) (x y : β) :
    (if c then (a, x) else (a, y)).1 = a := by
  split <;> rfl

theorem generalChat_inv (lead db : LeadDoc) (msg : String) (o : TurnOracle)
    (lang : Language) (hdb : Inv db) : Inv (generalChat lead db msg o lang).1 := by
  simp only [generalChat]
  by_cases hc : (isLikelyConfirming msg &&
      match lead.lastShownProducts with
      | some (_ :: _) => true
      | _ => false) = true
  · rw [if_pos hc]
    obtain ⟨x, xs, hx⟩ : ∃ x xs, lead.lastShownProducts = some (x :: xs) := by
      have h2 : (match lead.lastShownProducts with
          | some (_ :: _) => true
          | _ => false) = true := by
        have h3 := hc
        simp only [Bool.and_eq_true] at h3
        exact h3.2
      match hxx : lead.lastShownProducts with
      | some (x :: xs) => exact ⟨x, xs, rfl⟩
      | some [] => rw [hxx] at h2; simp at h2
      | none => rw [hxx] at h2; simp at h2
    rw [hx]
    by_cases hci : (truthyS lead.name && truthyS lead.phone && truthyS lead.address) = true
    · rw [if_pos hci]
      refine Inv.mk_of (some ⟨[⟨x.id, x.name, 1, x.price.getD 0⟩],
        ([(⟨x.id, x.name, 1, x.price.getD 0⟩ : OrderItem)]).foldl
          (fun s it => s + it.price * it.quantity) 0⟩)
        .show_order_summary nofun nofun nofun ?_ _ rfl rfl
      intro p hp
      simp only [Option.some.injEq] at hp
      subst hp
      simp
    · rw [if_neg hci]
      refine Inv.mk_of (some ⟨[⟨x.id, x.name, 1, x.price.getD 0⟩],
        ([(⟨x.id, x.name, 1, x.price.getD 0⟩ : OrderItem)]).foldl
          (fun s it => s + it.price * it.quantity) 0⟩)
        .ask_name nofun nofun nofun ?_ _ rfl rfl
      intro p hp
      simp only [Option.some.injEq] at hp
      subst hp
      simp
  · rw [if_neg hc]
    by_cases hr : (!isLikelyConfirming msg && (isProductQuery msg || o.hasImage)) = true
    · simp only [hr, if_true]
      cases o.rag with
      | error e =>
          simp only []
          rw [fst_ite_pair]
          exact hdb
      | ok ps =>
          cases ps with
          | nil =>
              simp only []
              rw [fst_ite_pair]
              exact hdb
          | cons p rest =>
              simp only []
              rw [fst_ite_pair]
              exact inv_of_same_core hdb rfl rfl
    · simp only [hr, if_false, Bool.false_eq_true]
      rw [fst_ite_pair]
      exact hdb

theorem handleConversation_inv (l : LeadDoc) (msg0 : String) (o : TurnOracle)
    (h : Inv l) : Inv (handleConversation l msg0 o).1 := by
  simp only [handleConversation]
  have hnone_of : pendingNonempty l.pendingOrder = false → l.pendingOrder = none := by
    intro hpo
    cases hpp : l.pendingOrder with
    | none => rfl
    | some po =>
        exfalso
        have hne := h.2.2.2 po hpp
        rw [hpp] at hpo
        simp only [pendingNonempty, Bool.not_eq_false'] at hpo
        exact hne (List.isEmpty_iff.mp hpo)
  cases hst : l.stage with
  | ask_item =>
      by_cases hg : looksLikeGreeting (normMsg msg0) = true
      · simp only [hg, if_true]; exact h
      · simp only [hg, if_false, Bool.false_eq_true]
        exact generalChat_inv _ _ _ _ _ (inv_of_same_core h hst.symm rfl)
  | ask_name =>
      by_cases hp : 3 ≤ (((jsSplit ',' (normMsg msg0)).map jsTrim).filter
          fun p => p.length ≠ 0).length
      · simp only [hp, if_true]
        by_cases hpo : pendingNonempty l.pendingOrder = true
        · simp only [hpo, if_true]
          exact Inv.mk_of l.pendingOrder .show_order_summary nofun nofun nofun
            h.2.2.2 _ rfl rfl
        · simp only [hpo, if_false, Bool.false_eq_true]
          have hnone := hnone_of (Bool.not_eq_true _ ▸ hpo)
          exact Inv.mk_of none .completed (fun _ => rfl) (fun _ => rfl) (fun _ => rfl)
            (fun p hp => by cases hp) _ rfl hnone
      · simp only [hp, if_false]
        by_cases hl : (normMsg msg0).length ≤ 120
        · simp only [hl, if_true]
          exact Inv.mk_of l.pendingOrder .ask_phone nofun nofun nofun h.2.2.2 _ rfl rfl
        · simp only [hl, if_false]; exact h
  | ask_phone =>
      by_cases hl : (jsTrim (o.phoneNorm.getD (normMsg msg0))).length ≤ 32
      · simp only [hl, if_true]
        exact Inv.mk_of l.pendingOrder .ask_email nofun nofun nofun h.2.2.2 _ rfl rfl
      · simp only [hl, if_false]; exact h
  | ask_email =>
      by_cases hsk : (jsTrim (normMsg msg0) = "." ||
          containsSeq (jsLower (normMsg msg0)).data "skip".data) = true
      · simp only [hsk, if_true]
        exact Inv.mk_of l.pendingOrder .ask_address nofun nofun nofun h.2.2.2 _ rfl rfl
      · simp only [hsk, if_false, Bool.false_eq_true]
        by_cases hv : o.emailValid = true
        · simp only [hv, if_true]
          exact Inv.mk_of l.pendingOrder .ask_address nofun nofun nofun h.2.2.2 _ rfl rfl
        · simp only [hv, if_false, Bool.false_eq_true]; exact h
  | ask_address =>
      by_cases hl : (normMsg msg0).length ≤ 300
      · simp only [hl, if_true]
        by_cases hpo : pendingNonempty l.pendingOrder = true
        · simp only [hpo, if_true]
          exact Inv.mk_of l.pendingOrder .show_order_summary nofun nofun nofun
            h.2.2.2 _ rfl rfl
        · simp only [hpo, if_false, Bool.false_eq_true]
          have hnone := hnone_of (Bool.not_eq_true _ ▸ hpo)
          exact Inv.mk_of none .completed (fun _ => rfl) (fun _ => rfl) (fun _ => rfl)
            (fun p hp => by cases hp) _ rfl hnone
      · simp only [hl, if_false]; exact h
  | show_order_summary =>
      by_cases h1 : ["yes", "confirm", "ok"].contains (jsTrim (jsLower (normMsg msg0))) = true
      · simp only [h1, if_true]
        exact Inv.mk_of l.pendingOrder .confirm_order nofun nofun nofun h.2.2.2 _ rfl rfl
      · simp only [h1, if_false, Bool.false_eq_true]
        by_cases h2 : ["edit", "change", "update"].contains
            (jsTrim (jsLower (normMsg msg0))) = true
        · simp only [h2, if_true]
          exact Inv.mk_of l.pendingOrder .ask_name nofun nofun nofun h.2.2.2 _ rfl rfl
        · simp only [h2, if_false, Bool.false_eq_true]; exact h
  | confirm_order =>
      by_cases h1 : ["yes", "confirm", "ok"].contains (jsTrim (jsLower (normMsg msg0))) = true
      · simp only [h1, if_true]
        by_cases hi : (!(l.pendingOrder.isSome && truthyS l.name && truthyS l.phone &&
            truthyS l.address)) = true
        · simp only [hi, if_true]
          exact Inv.mk_of none .completed (fun _ => rfl) (fun _ => rfl) (fun _ => rfl)
            (fun p hp => by cases hp) _ rfl rfl
        · simp only [hi, if_false, Bool.false_eq_true]
          cases o.commitCustomer with
          | error e => exact h
          | ok c =>
              cases hpp : l.pendingOrder with
              | none => exact h
              | some po =>
                  by_cases he : po.items.isEmpty = true
                  · simp only [he, if_true]; exact h
                  · simp only [he, if_false, Bool.false_eq_true]
                    cases o.commitOrder with
                    | error e2 => exact h
                    | ok pr =>
                        exact Inv.mk_of none .completed (fun _ => rfl) (fun _ => rfl)
                          (fun _ => rfl) (fun p hp => by cases hp) _ rfl rfl
      · simp only [h1, if_false, Bool.false_eq_true]
        by_cases h2 : ["no", "cancel"].contains (jsTrim (jsLower (normMsg msg0))) = true
        · simp only [h2, if_true]
          exact Inv.mk_of none .completed (fun _ => rfl) (fun _ => rfl) (fun _ => rfl)
            (fun p hp => by cases hp) _ rfl rfl
        · simp only [h2, if_false, Bool.false_eq_true]; exact h
  | completed => exact generalChat_inv _ _ _ _ _ h
  | processing_order => exact generalChat_inv _ _ _ _ _ h

theorem reachable_inv (l : LeadDoc) (h : Reachable l) : Inv l := by
  induction h with
  | init =>
      refine ⟨fun _ => rfl, fun _ => rfl, fun _ => rfl, fun po hp => by cases hp⟩
  | step l' msg o _ ih => exact handleConversation_inv l' msg o ih

/-- C3 counterexample: after browsing "shoe" (retrieval stores
`lastShownProducts`) and then confirming with "yes", the reachable Lead
has a non-null `pendingOrder` while its stage is `ask_name` — not
`show_order_summary` or `confirm_order` as the claimed invariant
requires. -/
theorem c3_counterexample :
    Reachable (handleConversation (handleConversation initialLead "shoe"
      { rag := .ok [⟨"p1", "Shoe", some 10, 9/10⟩] }).1 "yes" {}).1 ∧
    (handleConversation (handleConversation initialLead "shoe"
      { rag := .ok [⟨"p1", "Shoe", some 10, 9/10⟩] }).1 "yes" {}).1.pendingOrder.isSome
      = true ∧
    (handleConversation (handleConversation initialLead "shoe"
      { rag := .ok [⟨"p1", "Shoe", some 10, 9/10⟩] }).1 "yes" {}).1.stage = .ask_name ∧
    Stage.ask_name ≠ Stage.show_order_summary ∧
    Stage.ask_name ≠ Stage.confirm_order :=
  ⟨Reachable.step _ _ _ (Reachable.step _ _ _ Reachable.init), rfl, rfl,
    by decide, by decide⟩

/-- C3 corrected: in every reachable Lead state, `pendingOrder` is
non-null only when the stage is one of `ask_name`, `ask_phone`,
`ask_email`, `ask_address`, `show_order_summary`, `confirm_order` — the
deictic order path first stores the pending order and then sends the user
through the contact-collection stages, so the collection stages can carry
a pending order too; `ask_item` and `completed` never do. -/
theorem c3_pending_order_only_in_order_stages (l : LeadDoc) (h : Reachable l)
    (hpo : l.pendingOrder.isSome = true) :
    l.stage = .ask_name ∨ l.stage = .ask_phone ∨ l.stage = .ask_email ∨
      l.stage = .ask_address ∨ l.stage = .show_order_summary ∨
      l.stage = .confirm_order := by
  have hinv := reachable_inv l h
  cases hst : l.stage with
  | ask_item => rw [hinv.1 hst] at hpo; cases hpo
  | completed => rw [hinv.2.1 hst] at hpo; cases hpo
  | processing_order => rw [hinv.2.2.1 hst] at hpo; cases hpo
  | ask_name => exact Or.inl rfl
  | ask_phone => exact Or.inr (Or.inl rfl)
  | ask_email => exact Or.inr (Or.inr (Or.inl rfl))
  | ask_address => exact Or.inr (Or.inr (Or.inr (Or.inl rfl)))
  | show_order_summary => exact Or.inr (Or.inr (Or.inr (Or.inr (Or.inl rfl))))
  | confirm_order => exact Or.inr (Or.inr (Or.inr (Or.inr (Or.inr rfl))))

/-- Witness for C3's corrected statement at the concrete reachable state
of the browsing-then-confirming trace. -/
theorem c3_witness :
    Reachable (handleConversation (handleConversation initialLead "shoe"
      { rag := .ok [⟨"p2", "Boot", some 5, 1/2⟩] }).1 "i take" {}).1 ∧
    ((handleConversation (handleConversation initialLead "shoe"
        { rag := .ok [⟨"p2", "Boot", some 5, 1/2⟩] }).1 "i take" {}).1.stage = .ask_name ∨
      (handleConversation (handleConversation initialLead "shoe"
        { rag := .ok [⟨"p2", "Boot", some 5, 1/2⟩] }).1 "i take" {}).1.stage = .ask_phone ∨
      (handleConversation (handleConversation initialLead "shoe"
        { rag := .ok [⟨"p2", "Boot", some 5, 1/2⟩] }).1 "i take" {}).1.stage = .ask_email ∨
      (handleConversation (handleConversation initialLead "shoe"
        { rag := .ok [⟨"p2", "Boot", some 5, 1/2⟩] }).1 "i take" {}).1.stage = .ask_address ∨
      (handleConversation (handleConversation initialLead "shoe"
        { rag := .ok [⟨"p2", "Boot", some 5, 1/2⟩] }).1 "i take" {}).1.stage
          = .show_order_summary ∨
      (handleConversation (handleConversation initialLead "shoe"
        { rag := .ok [⟨"p2", "Boot", some 5, 1/2⟩] }).1 "i take" {}).1.stage
          = .confirm_order) :=
  ⟨Reachable.step _ _ _ (Reachable.step _ _ _ Reachable.init),
    c3_pending_order_only_in_order_stages _
      (Reachable.step _ _ _ (Reachable.step _ _ _ Reachable.init)) rfl⟩

/-! ## Claim C10 — zero-price products on the deictic order path -/

theorem generalChat_deictic (lead db : LeadDoc) (msg : String) (o : TurnOracle)
    (lang : Language) (p : ProductInfo) (rest : List ProductInfo)
    (hshown : lead.lastShownProducts = some (p :: rest))
    (hconf : isLikelyConfirming msg = true)
    (hprice : p.price = none ∨ p.price = some 0) :
    (generalChat lead db msg o lang).1.pendingOrder =
      some ⟨[⟨p.id, p.name, 1, 0⟩], 0⟩ ∧
    ((generalChat lead db msg o lang).1.stage = .show_order_summary ∨
      (generalChat lead db msg o lang).1.stage = .ask_name) := by
  simp only [generalChat]
  have hc : (isLikelyConfirming msg &&
      match lead.lastShownProducts with
      | some (_ :: _) => true
      | _ => false) = true := by
    rw [hconf, hshown]
    rfl
  rw [if_pos hc, hshown]
  have hzero : p.price.getD 0 = 0 := by
    rcases hprice with h | h <;> rw [h] <;> rfl
  by_cases hci : (truthyS lead.name && truthyS lead.phone && truthyS lead.address) = true
  · rw [if_pos hci]
    refine ⟨?_, Or.inl rfl⟩
    simp only [Option.getD_some, List.take_succ_cons, List.take_zero,
      List.map_cons, List.map_nil, List.foldl_cons, List.foldl_nil, hzero,
      Option.some.injEq]
    norm_num
  · rw [if_neg hci]
    refine ⟨?_, Or.inr rfl⟩
    simp only [Option.getD_some, List.take_succ_cons, List.take_zero,
      List.map_cons, List.map_nil, List.foldl_cons, List.foldl_nil, hzero,
      Option.some.injEq]
    norm_num

/-- C10: when a confirming message arrives while `lastShownProducts` is
non-empty and the top shown product's stored price is null or 0,
`handleConversation` still creates a `pendingOrder` with exactly that one
product, quantity 1, unit price 0 and total 0, and proceeds to the
collection/summary stages; prices are coerced to 0 when building the
order item and when storing `lastShownProducts` (`storeShown`). -/
theorem c10_zero_price_order_path (lead : LeadDoc) (msg0 : String) (o : TurnOracle)
    (p : ProductInfo) (rest : List ProductInfo)
    (hshown : lead.lastShownProducts = some (p :: rest))
    (hprice : p.price = none ∨ p.price = some 0)
    (hconf : isLikelyConfirming (normMsg msg0) = true)
    (hstage : lead.stage = .completed ∨
      (lead.stage = .ask_item ∧ looksLikeGreeting (normMsg msg0) = false)) :
    (handleConversation lead msg0 o).1.pendingOrder =
      some ⟨[⟨p.id, p.name, 1, 0⟩], 0⟩ ∧
    ((handleConversation lead msg0 o).1.stage = .show_order_summary ∨
      (handleConversation lead msg0 o).1.stage = .ask_name) ∧
    (∀ q : RetrievedProduct, (storeShown q).price = some (q.price.getD 0)) := by
  have hmain : (handleConversation lead msg0 o).1.pendingOrder =
      some ⟨[⟨p.id, p.name, 1, 0⟩], 0⟩ ∧
      ((handleConversation lead msg0 o).1.stage = .show_order_summary ∨
        (handleConversation lead msg0 o).1.stage = .ask_name) := by
    simp only [handleConversation]
    rcases hstage with hs | ⟨hs, hg⟩
    · rw [hs]
      exact generalChat_deictic lead lead (normMsg msg0) o _ p rest hshown hconf hprice
    · rw [hs]
      simp only [hg, if_false, Bool.false_eq_true]
      exact generalChat_deictic lead _ (normMsg msg0) o _ p rest hshown hconf hprice
  exact ⟨hmain.1, hmain.2, fun q => rfl⟩

/-- Witness for C10 at a concrete input: a null-price product confirmed
with "yes" from a completed-stage lead with no contact info on file. -/
theorem c10_witness :
    (LeadDoc.lastShownProducts
        { stage := .completed,
          lastShownProducts := some [⟨"p9", "Free", none, 1/2⟩] } =
      some [⟨"p9", "Free", none, 1/2⟩]) ∧
    (handleConversation
        { stage := .completed,
          lastShownProducts := some [⟨"p9", "Free", none, 1/2⟩] }
        "yes" {}).1.pendingOrder = some ⟨[⟨"p9", "Free", 1, 0⟩], 0⟩ ∧
    ((handleConversation
        { stage := .completed,
          lastShownProducts := some [⟨"p9", "Free", none, 1/2⟩] }
        "yes" {}).1.stage = .show_order_summary ∨
      (handleConversation
        { stage := .completed,
          lastShownProducts := some [⟨"p9", "Free", none, 1/2⟩] }
        "yes" {}).1.stage = .ask_name) :=
  ⟨rfl,
    (c10_zero_price_order_path _ "yes" {} ⟨"p9", "Free", none, 1/2⟩ [] rfl
      (Or.inl rfl) (by decide) (Or.inl rfl)).1,
    (c10_zero_price_order_path _ "yes" {} ⟨"p9", "Free", none, 1/2⟩ [] rfl
      (Or.inl rfl) (by decide) (Or.inl rfl)).2.1⟩

/-! ## Claim C7 — event coalescing -/

namespace EventBufferState

theorem lookupBuf_setAssoc (m : List (String × BufferedEvent)) (k : String)
    (v : BufferedEvent) : lookupBuf (setAssoc m k v) k = some v := by
  induction m with
  | nil => simp [setAssoc, lookupBuf]
  | cons kv rest ih =>
      obtain ⟨k', v'⟩ := kv
      by_cases h : k' = k
      · simp [setAssoc, h, lookupBuf]
      · simp [setAssoc, h, lookupBuf, ih]

/-- The state after an initial event and a correlated follow-up within the
coalescing window. -/
def twoEventState (wait t1 t2 : ℕ) (sender text1 text2 : String)
    (img1 img2 mid1 mid2 : Option String) : EventBufferState :=
  addEvent (addEvent (init wait) t1 sender text1 img1 mid1) t2 sender text2 img2 mid2

theorem twoEventState_eq (wait t1 t2 : ℕ) (sender text1 text2 : String)
    (img1 img2 mid1 mid2 : Option String) (h : t2 - t1 < wait) :
    twoEventState wait t1 t2 sender text1 text2 img1 img2 mid1 mid2 =
      ⟨wait, [(sender, mergeEvents sender text2 img2 mid2
          ⟨sender, text1, img1, mid1, t1⟩)],
        [(sender, 1)], [(1, sender)], 2, []⟩ := by
  simp [twoEventState, addEvent, init, lookupBuf, lookupTimer, setAssoc,
    setTimerAssoc, h]

theorem fire_two (wait : ℕ) (sender : String) (M : BufferedEvent) (tid : ℕ) :
    fire ⟨wait, [(sender, M)], [(sender, 1)], [(1, sender)], 2, []⟩ tid =
      (if tid = 1 then ⟨wait, [], [], [], 2, [M]⟩
       else ⟨wait, [(sender, M)], [(sender, 1)], [(1, sender)], 2, []⟩) := by
  by_cases h : tid = 1
  · subst h
    simp [fire, lookupPending, lookupBuf]
  · have h1 : ¬(1 : ℕ) = tid := fun hh => h hh.symm
    simp [fire, lookupPending, h, h1]

theorem fire_flushed (wait : ℕ) (M : BufferedEvent) (tid : ℕ) :
    fire ⟨wait, [], [], [], 2, [M]⟩ tid = ⟨wait, [], [], [], 2, [M]⟩ := rfl

theorem applyFires_flushed (wait : ℕ) (M : BufferedEvent) (fs : List ℕ) :
    applyFires ⟨wait, [], [], [], 2, [M]⟩ fs = ⟨wait, [], [], [], 2, [M]⟩ := by
  induction fs with
  | nil => rfl
  | cons t ts ih => simp [applyFires, List.foldl_cons, fire_flushed] at ih ⊢; exact ih

theorem applyFires_two (wait : ℕ) (sender : String) (M : BufferedEvent) (fs : List ℕ) :
    applyFires ⟨wait, [(sender, M)], [(sender, 1)], [(1, sender)], 2, []⟩ fs =
      (if (1 : ℕ) ∈ fs then ⟨wait, [], [], [], 2, [M]⟩
       else ⟨wait, [(sender, M)], [(sender, 1)], [(1, sender)], 2, []⟩) := by
  induction fs with
  | nil => rfl
  | cons t ts ih =>
      by_cases h : t = 1
      · subst h
        simp only [applyFires, List.foldl_cons] at ih ⊢
        rw [fire_two]
        have hF := applyFires_flushed wait M ts
        simp only [applyFires] at hF
        simp [hF]
      · simp only [applyFires, List.foldl_cons] at ih ⊢
        rw [fire_two, if_neg h, ih]
        have hiff : ((1 : ℕ) ∈ t :: ts) ↔ ((1 : ℕ) ∈ ts) := by
          simp only [List.mem_cons]
          constructor
          · rintro (hh | hh)
            · exact absurd hh.symm h
            · exact hh
          · exact Or.inr
        by_cases hm : (1 : ℕ) ∈ ts
        · rw [if_pos hm, if_pos (hiff.mpr hm)]
        · rw [if_neg hm, if_neg (fun hh => hm (hiff.mp hh))]

end EventBufferState

/-- C7 counterexample: when both the buffered and the new event carry an
image, the merge keeps the NEW image (`imageUrl || existing.imageUrl`),
not the buffered one — contradicting "prefers the new image only if the
buffered one is absent". -/
theorem c7_counterexample :
    EventBufferState.lookupBuf (EventBufferState.addEvent
        (EventBufferState.addEvent (EventBufferState.init 2000) 0 "u" "look"
          (some "a") (some "m1")) 500 "u" "" (some "b") (some "m2")).buffer "u" =
      some ⟨"u", "look", some "b", some "m2", 0⟩ ∧
    (EventBufferState.lookupBuf (EventBufferState.addEvent (EventBufferState.init 2000)
        0 "u" "look" (some "a") (some "m1")).buffer "u").map BufferedEvent.imageUrl =
      some (some "a") ∧
    (some "b" : Option String) ≠ some "a" :=
  ⟨rfl, rfl, by decide⟩

/-- C7 corrected: merging a second event into a buffered turn younger than
`waitMs` keeps the longer text (ties favouring the buffered text) and
keeps the NEW image whenever the new event carries one, falling back to
the buffered image otherwise; a short settle-timer is rescheduled, and for
a text event followed by an image event within the window the callback
fires exactly once with the merged turn, after which the buffer entry is
deleted (stale timer fires are no-ops). -/
theorem c7_merge_and_exactly_once :
    (∀ (eb : EventBufferState) (now : ℕ) (sender text : String)
        (img mid : Option String) (existing : BufferedEvent),
      EventBufferState.lookupBuf eb.buffer sender = some existing →
      now - existing.timestamp < eb.waitTimeMs →
      EventBufferState.lookupBuf
          (EventBufferState.addEvent eb now sender text img mid).buffer sender =
        some (EventBufferState.mergeEvents sender text img mid existing) ∧
      (EventBufferState.mergeEvents sender text img mid existing).messageText =
        (if existing.messageText.length < text.length then text
         else existing.messageText) ∧
      (img = none →
        (EventBufferState.mergeEvents sender text img mid existing).imageUrl =
          existing.imageUrl) ∧
      (∀ s, img = some s → s ≠ "" →
        (EventBufferState.mergeEvents sender text img mid existing).imageUrl =
          some s)) ∧
    (∀ (wait t1 t2 : ℕ) (sender text1 text2 : String)
        (img1 img2 mid1 mid2 : Option String) (fs : List ℕ),
      t2 - t1 < wait →
      (EventBufferState.applyFires
          (EventBufferState.twoEventState wait t1 t2 sender text1 text2
            img1 img2 mid1 mid2) fs).fired.length ≤ 1 ∧
      ((EventBufferState.applyFires
          (EventBufferState.twoEventState wait t1 t2 sender text1 text2
            img1 img2 mid1 mid2) fs).fired ≠ [] →
        (EventBufferState.applyFires
          (EventBufferState.twoEventState wait t1 t2 sender text1 text2
            img1 img2 mid1 mid2) fs).fired =
          [EventBufferState.mergeEvents sender text2 img2 mid2
            ⟨sender, text1, img1, mid1, t1⟩]) ∧
      ((1 : ℕ) ∈ fs →
        (EventBufferState.applyFires
          (EventBufferState.twoEventState wait t1 t2 sender text1 text2
            img1 img2 mid1 mid2) fs).fired =
          [EventBufferState.mergeEvents sender text2 img2 mid2
            ⟨sender, text1, img1, mid1, t1⟩] ∧
        (EventBufferState.applyFires
          (EventBufferState.twoEventState wait t1 t2 sender text1 text2
            img1 img2 mid1 mid2) fs).buffer = [])) := by
  constructor
  · intro eb now sender text img mid existing hbuf hyoung
    refine ⟨?_, rfl, ?_, ?_⟩
    · simp only [EventBufferState.addEvent, hbuf, hyoung, if_pos]
      exact EventBufferState.lookupBuf_setAssoc _ _ _
    · intro h; subst h; rfl
    · intro s h hne
      subst h
      simp [EventBufferState.mergeEvents, jsOr, hne]
  · intro wait t1 t2 sender text1 text2 img1 img2 mid1 mid2 fs h
    rw [EventBufferState.twoEventState_eq _ _ _ _ _ _ _ _ _ _ h,
      EventBufferState.applyFires_two]
    by_cases hm : (1 : ℕ) ∈ fs
    · simp [hm]
    · simp [hm]

/-- Witness for C7's corrected statement at concrete inputs: a text event
at t=0 merged with an image event at t=500, then an arbitrary fire
sequence containing both the cancelled timer 0 and the live timer 1. -/
theorem c7_witness :
    (EventBufferState.lookupBuf (EventBufferState.addEvent
        (EventBufferState.init 2000) 0 "u" "hi there" none (some "m1")).buffer "u" =
      some ⟨"u", "hi there", none, some "m1", 0⟩) ∧
    EventBufferState.lookupBuf (EventBufferState.addEvent
        (EventBufferState.addEvent (EventBufferState.init 2000) 0 "u" "hi there"
          none (some "m1")) 500 "u" "" (some "img") (some "m2")).buffer "u" =
      some (EventBufferState.mergeEvents "u" "" (some "img") (some "m2")
        ⟨"u", "hi there", none, some "m1", 0⟩) ∧
    (500 - 0 < 2000) ∧
    (EventBufferState.applyFires (EventBufferState.twoEventState 2000 0 500 "u"
        "hi there" "" none (some "img") (some "m1") (some "m2")) [0, 1, 1]).fired =
      [EventBufferState.mergeEvents "u" "" (some "img") (some "m2")
        ⟨"u", "hi there", none, some "m1", 0⟩] ∧
    (EventBufferState.applyFires (EventBufferState.twoEventState 2000 0 500 "u"
        "hi there" "" none (some "img") (some "m1") (some "m2")) [0, 1, 1]).buffer = [] ∧
    (EventBufferState.mergeEvents "u" "" (some "img") (some "m2")
        ⟨"u", "hi there", none, some "m1", 0⟩).messageText = "hi there" ∧
    (EventBufferState.mergeEvents "u" "" (some "img") (some "m2")
        ⟨"u", "hi there", none, some "m1", 0⟩).imageUrl = some "img" :=
  ⟨rfl,
    (c7_merge_and_exactly_once.1
      (EventBufferState.addEvent (EventBufferState.init 2000) 0 "u" "hi there"
        none (some "m1")) 500 "u" "" (some "img") (some "m2")
      ⟨"u", "hi there", none, some "m1", 0⟩ rfl (by decide)).1,
    by decide,
    ((c7_merge_and_exactly_once.2 2000 0 500 "u" "hi there" "" none (some "img")
      (some "m1") (some "m2") [0, 1, 1] (by decide)).2.2 (by decide)).1,
    ((c7_merge_and_exactly_once.2 2000 0 500 "u" "hi there" "" none (some "img")
      (some "m1") (some "m2") [0, 1, 1] (by decide)).2.2 (by decide)).2,
    rfl, rfl⟩

/-! ## Claim C8 — reply totality -/

theorem techFallback_nonempty (lang : Language) : (techFallback lang).length ≠ 0 := by
  cases lang <;> decide

theorem backendPhase_reply (st : AiState) (now : ℕ) (key : String) (lang : Language)
    (ef : String) (backend : Except Unit String) :
    ((backendPhase st now key lang ef backend).2.path = .backendError →
      (backendPhase st now key lang ef backend).2.reply = techFallback lang) ∧
    ((backendPhase st now key lang ef backend).2.path = .backendError ∨
      (backendPhase st now key lang ef backend).2.path = .backendEmpty ∨
      (backendPhase st now key lang ef backend).2.path = .success) := by
  cases backend with
  | error e => exact ⟨fun _ => rfl, Or.inl rfl⟩
  | ok content =>
      by_cases h : (jsTrim content).length = 0
      · have hb : backendPhase st now key lang ef (.ok content) =
            (st, ⟨ef, lang, .backendEmpty⟩) := by
          simp [backendPhase, h]
        rw [hb]
        exact ⟨nofun, Or.inr (Or.inl rfl)⟩
      · have hb : backendPhase st now key lang ef (.ok content) =
            ({ st with
                cache := setCache st.cache key
                  ⟨clampText (cleanAIResponse (jsTrim content)) 800 "…", lang, now⟩
                cbFailures := st.cbFailures - 1 },
              ⟨clampText (cleanAIResponse (jsTrim content)) 800 "…", lang,
                .success⟩) := by
          simp [backendPhase, h]
        rw [hb]
        exact ⟨nofun, Or.inr (Or.inr rfl)⟩

/-- C8 counterexample: an empty message makes both reply functions throw
(`throw new Error('Empty message not allowed')` /
`'Invalid userId or empty message'`) instead of returning a fallback
reply — the claimed totality over every input fails at the validation
guards. -/
theorem c8_counterexample :
    isErr (generateAiReplyWithHistory AiState.initial 0 "u" "" false
      (.ok "hello")).2 = true ∧
    isErr (generateAiReply AiState.initial 0 "" (.ok "hello")).2 = true :=
  ⟨rfl, rfl⟩

/-- C8 corrected: for every valid input (non-blank user id, message
non-blank after trimming and at most 5000 characters), both reply
functions return a result rather than throwing, and a backend exception is
converted into the fixed, non-empty technical-issue fallback. -/
theorem c8_valid_input_replies (st : AiState) (now : ℕ) (u msg : String)
    (hasLead : Bool) (backend : Except Unit String)
    (hu : u.length ≠ 0) (hm : (jsTrim msg).length ≠ 0) (hl : msg.length ≤ 5000) :
    (∃ r, (generateAiReplyWithHistory st now u msg hasLead backend).2 = .ok r ∧
      (r.path = .backendError →
        r.reply = techFallback (detectLanguage msg) ∧ r.reply.length ≠ 0)) ∧
    (∃ r, (generateAiReply st now msg backend).2 = .ok r ∧
      (r.path = .backendError →
        r.reply = techFallback (detectLanguage msg) ∧ r.reply.length ≠ 0)) := by
  constructor
  · unfold generateAiReplyWithHistory
    rw [if_neg (not_or.mpr ⟨hu, hm⟩), if_neg (by omega)]
    simp only []
    split
    · exact ⟨_, rfl, nofun⟩
    · split
      · exact ⟨_, rfl, nofun⟩
      · split
        · split
          · exact ⟨_, rfl, nofun⟩
          · refine ⟨_, rfl, fun hp => ?_⟩
            exact ⟨(backendPhase_reply _ _ _ _ _ _).1 hp,
              ((backendPhase_reply _ _ _ _ _ _).1 hp) ▸ techFallback_nonempty _⟩
        · refine ⟨_, rfl, fun hp => ?_⟩
          exact ⟨(backendPhase_reply _ _ _ _ _ _).1 hp,
            ((backendPhase_reply _ _ _ _ _ _).1 hp) ▸ techFallback_nonempty _⟩
  · unfold generateAiReply
    rw [if_neg hm, if_neg (by omega)]
    simp only []
    split
    · split
      · exact ⟨_, rfl, nofun⟩
      · split
        · exact ⟨_, rfl, nofun⟩
        · refine ⟨_, rfl, fun hp => ?_⟩
          exact ⟨(backendPhase_reply _ _ _ _ _ _).1 hp,
            ((backendPhase_reply _ _ _ _ _ _).1 hp) ▸ techFallback_nonempty _⟩
    · split
      · exact ⟨_, rfl, nofun⟩
      · refine ⟨_, rfl, fun hp => ?_⟩
        exact ⟨(backendPhase_reply _ _ _ _ _ _).1 hp,
          ((backendPhase_reply _ _ _ _ _ _).1 hp) ▸ techFallback_nonempty _⟩

/-- Witness for C8's corrected statement: a valid request whose backend
call throws still yields the fixed fallback reply. -/
theorem c8_witness :
    ("u".length ≠ 0 ∧ (jsTrim "hello").length ≠ 0 ∧ "hello".length ≤ 5000) ∧
    (∃ r, (generateAiReplyWithHistory AiState.initial 0 "u" "hello" false
        (.error ())).2 = .ok r ∧
      (r.path = .backendError →
        r.reply = techFallback (detectLanguage "hello") ∧ r.reply.length ≠ 0)) ∧
    (∃ r, (generateAiReply AiState.initial 0 "hello" (.error ())).2 = .ok r ∧
      (r.path = .backendError →
        r.reply = techFallback (detectLanguage "hello") ∧ r.reply.length ≠ 0)) :=
  ⟨⟨by decide, by decide, by decide⟩,
    (c8_valid_input_replies AiState.initial 0 "u" "hello" false (.error ())
      (by decide) (by decide) (by decide)).1,
    (c8_valid_input_replies AiState.initial 0 "u" "hello" false (.error ())
      (by decide) (by decide) (by decide)).2⟩

/-! ## Claim C9 — response-cache keying -/

set_option maxRecDepth 100000

/-- C9 counterexample: two messages from the same user with the same
lead-presence that agree on their first 50 characters but differ beyond
them share a cache key, so the reply cached for the first (backend
content "Hello") is returned as a cache hit for the second — even with the
backend failing — within the TTL. -/
theorem c9_counterexample :
    (String.mk (List.replicate 50 'a') ++ "aaaaa" : String) ≠
      String.mk (List.replicate 50 'a') ++ "bbbbb" ∧
    (generateAiReplyWithHistory
        (generateAiReplyWithHistory AiState.initial 0 "u"
          (String.mk (List.replicate 50 'a') ++ "aaaaa") true (.ok "Hello")).1
        1000 "u" (String.mk (List.replicate 50 'a') ++ "bbbbb") true
        (.error ())).2 =
      .ok ⟨"Hello", .en, .cacheHit⟩ :=
  ⟨by decide, rfl⟩

/-- C9 corrected: the response cache of the history-aware path is keyed on
the first 50 characters of the clamped sanitized input (plus user id and
lead-presence), not the full text: two requests from the same user with
the same lead-presence share a cache key exactly when their clamped
sanitized texts agree on the first 50 characters; a fresh entry under the
key within the TTL is returned as the reply (with the rate limiter
allowing and the breaker closed). -/
theorem c9_cache_key_first_50 :
    (∀ (u m1 m2 : String) (hasLead : Bool),
      cacheKeyHistory u (clampText m1 800 "…") hasLead =
        cacheKeyHistory u (clampText m2 800 "…") hasLead ↔
      (clampText m1 800 "…").take 50 = (clampText m2 800 "…").take 50) ∧
    (∀ (st : AiState) (now : ℕ) (u msg : String) (hasLead : Bool)
        (backend : Except Unit String) (entry : CacheEntry),
      u.length ≠ 0 → (jsTrim msg).length ≠ 0 → msg.length ≤ 5000 →
      (allowEvent st.aiRateBuckets 30000 4 now u).1 = true →
      st.cbResetTime ≤ now →
      lookupCache st.cache
        (cacheKeyHistory u (clampText msg 800 "…") hasLead) = some entry →
      now - entry.timestamp < CACHE_TTL →
      (generateAiReplyWithHistory st now u msg hasLead backend).2 =
        .ok ⟨entry.response, entry.language, .cacheHit⟩) := by
  constructor
  · intro u m1 m2 hasLead
    generalize clampText m1 800 "…" = s1
    generalize clampText m2 800 "…" = s2
    constructor
    · intro h
      unfold cacheKeyHistory at h
      have hd := congrArg String.data h
      simp only [String.data_append] at hd
      simp only [List.append_assoc] at hd
      have hlen : (s1.take 50).data.length = (s2.take 50).data.length := by
        have hll := congrArg List.length hd
        simp only [List.length_append] at hll
        omega
      have h1 := List.append_cancel_left hd
      have h2 := List.append_cancel_left h1
      have h3 := List.append_cancel_left h2
      have hdd : (s1.take 50).data = (s2.take 50).data :=
        List.append_inj_left h3 hlen
      cases hcl1 : s1.take 50 with
      | mk d1 =>
          cases hcl2 : s2.take 50 with
          | mk d2 =>
              rw [hcl1, hcl2] at hdd
              simp only [] at hdd
              rw [hdd]
    · intro h
      unfold cacheKeyHistory
      rw [h]
  · intro st now u msg hasLead backend entry hu hm hl hrate hcb hentry httl
    unfold generateAiReplyWithHistory
    rw [if_neg (not_or.mpr ⟨hu, hm⟩), if_neg (by omega)]
    simp only [hrate, not_true, if_false, Bool.not_eq_true, ite_false, ite_true]
    have hnlt : ¬(now < st.cbResetTime) := not_lt.mpr hcb
    by_cases h0 : 0 < st.cbResetTime <;>
      simp [isCircuitBreakerOpen, hnlt, h0, hentry, httl]

/-- Witness for C9's corrected statement at concrete inputs. -/
theorem c9_witness :
    (cacheKeyHistory "u" (clampText "abc" 800 "…") true =
        cacheKeyHistory "u" (clampText "abc" 800 "…") true ↔
      (clampText "abc" 800 "…").take 50 = (clampText "abc" 800 "…").take 50) ∧
    (generateAiReplyWithHistory
        ⟨[(cacheKeyHistory "u" (clampText "abc" 800 "…") true,
          ⟨"cached!", .en, 0⟩)], 0, 0, []⟩ 1000 "u" "abc" true (.error ())).2 =
      .ok ⟨"cached!", .en, .cacheHit⟩ :=
  ⟨c9_cache_key_first_50.1 "u" "abc" "abc" true,
    c9_cache_key_first_50.2
      ⟨[(cacheKeyHistory "u" (clampText "abc" 800 "…") true, ⟨"cached!", .en, 0⟩)],
        0, 0, []⟩ 1000 "u" "abc" true (.error ()) ⟨"cached!", .en, 0⟩
      (by decide) (by decide) (by decide) rfl (by decide) rfl (by decide)⟩

/-! ## Claim C4 — circuit-breaker behaviour -/

/-- C4 counterexample: a seven-call trace (fail, fail, fail, fail,
success, fail, fail — each call reaching the backend) opens the breaker
(reset time 660000 after the last call at 600000) although its longest run
of consecutive backend failures is 4, below the threshold of 5: the
counter decrements on success instead of resetting, so the breaker does
not open "exactly after N consecutive failures". -/
theorem c4_counterexample :
    (runCalls AiState.initial
      [⟨0, "u", "q1", false, .error ()⟩, ⟨100000, "u", "q2", false, .error ()⟩,
        ⟨200000, "u", "q3", false, .error ()⟩, ⟨300000, "u", "q4", false, .error ()⟩,
        ⟨400000, "u", "q5", false, .ok "OK"⟩, ⟨500000, "u", "q6", false, .error ()⟩,
        ⟨600000, "u", "q7", false, .error ()⟩]).1.cbResetTime = 660000 ∧
    600000 < 660000 ∧
    (runCalls AiState.initial
      [⟨0, "u", "q1", false, .error ()⟩, ⟨100000, "u", "q2", false, .error ()⟩,
        ⟨200000, "u", "q3", false, .error ()⟩, ⟨300000, "u", "q4", false, .error ()⟩,
        ⟨400000, "u", "q5", false, .ok "OK"⟩, ⟨500000, "u", "q6", false, .error ()⟩,
        ⟨600000, "u", "q7", false, .error ()⟩]).2 =
      [.backendError, .backendError, .backendError, .backendError, .success,
        .backendError, .backendError] ∧
    maxErrorRun [.error (), .error (), .error (), .error (), .ok "OK",
      .error (), .error ()] = 4 ∧
    maxErrorRun [.error (), .error (), .error (), .error (), .ok "OK",
      .error (), .error ()] < CIRCUIT_BREAKER_THRESHOLD :=
  ⟨rfl, by decide, rfl, rfl, by decide⟩

/-- C4 corrected: the failure counter increments on each backend failure
and decrements by one on each non-empty success (it is not reset), and the
breaker opens when the counter reaches the threshold of 5 — so from a
zero counter it opens exactly on the 5th uninterrupted failure, but mixed
traces can open it without 5 consecutive failures.  While the reset time
is in the future every rate-admitted call returns the fixed unavailability
fallback without invoking the backend; once it has elapsed the next
admitted, cache-missing call is let through to the backend and its outcome
decides the breaker state (the counter restarts from zero). -/
theorem c4_breaker_behaviour :
    (∀ (st : AiState) (now : ℕ) (u msg : String) (hasLead : Bool)
        (backend : Except Unit String),
      u.length ≠ 0 → (jsTrim msg).length ≠ 0 → msg.length ≤ 5000 →
      (allowEvent st.aiRateBuckets 30000 4 now u).1 = true →
      now < st.cbResetTime →
      (generateAiReplyWithHistory st now u msg hasLead backend).2 =
        .ok ⟨unavailableFallback (detectLanguage msg), detectLanguage msg,
          .breakerOpen⟩ ∧
      AiPath.usedBackend .breakerOpen = false) ∧
    (∀ (st : AiState) (now : ℕ) (u msg : String) (hasLead : Bool)
        (backend : Except Unit String),
      u.length ≠ 0 → (jsTrim msg).length ≠ 0 → msg.length ≤ 5000 →
      (allowEvent st.aiRateBuckets 30000 4 now u).1 = true →
      0 < st.cbResetTime → st.cbResetTime ≤ now →
      lookupCache st.cache
        (cacheKeyHistory u (clampText msg 800 "…") hasLead) = none →
      ∃ r, (generateAiReplyWithHistory st now u msg hasLead backend).2 = .ok r ∧
        r.path.usedBackend = true) ∧
    (∀ (st : AiState) (now : ℕ) (u msg : String) (hasLead : Bool),
      u.length ≠ 0 → (jsTrim msg).length ≠ 0 → msg.length ≤ 5000 →
      (allowEvent st.aiRateBuckets 30000 4 now u).1 = true →
      st.cbResetTime = 0 →
      lookupCache st.cache
        (cacheKeyHistory u (clampText msg 800 "…") hasLead) = none →
      (generateAiReplyWithHistory st now u msg hasLead (.error ())).1.cbFailures =
        st.cbFailures + 1 ∧
      (generateAiReplyWithHistory st now u msg hasLead (.error ())).1.cbResetTime =
        (if CIRCUIT_BREAKER_THRESHOLD ≤ st.cbFailures + 1 then
          now + CIRCUIT_BREAKER_TIMEOUT else 0)) ∧
    (∀ (st : AiState) (now : ℕ) (u msg content : String) (hasLead : Bool),
      u.length ≠ 0 → (jsTrim msg).length ≠ 0 → msg.length ≤ 5000 →
      (allowEvent st.aiRateBuckets 30000 4 now u).1 = true →
      st.cbResetTime = 0 →
      lookupCache st.cache
        (cacheKeyHistory u (clampText msg 800 "…") hasLead) = none →
      (jsTrim content).length ≠ 0 →
      (generateAiReplyWithHistory st now u msg hasLead (.ok content)).1.cbFailures =
        st.cbFailures - 1 ∧
      (generateAiReplyWithHistory st now u msg hasLead
        (.ok content)).1.cbResetTime = 0) := by
  refine ⟨?_, ?_, ?_, ?_⟩
  · intro st now u msg hasLead backend hu hm hl hrate hopen
    refine ⟨?_, rfl⟩
    unfold generateAiReplyWithHistory
    rw [if_neg (not_or.mpr ⟨hu, hm⟩), if_neg (by omega)]
    simp [hrate, isCircuitBreakerOpen, hopen]
  · intro st now u msg hasLead backend hu hm hl hrate hpos hle hmiss
    unfold generateAiReplyWithHistory
    rw [if_neg (not_or.mpr ⟨hu, hm⟩), if_neg (by omega)]
    have hnlt : ¬(now < st.cbResetTime) := not_lt.mpr hle
    simp only [hrate, not_true, if_false, Bool.not_eq_true, ite_false, ite_true,
      isCircuitBreakerOpen, hnlt, hpos, if_true, hmiss]
    refine ⟨_, rfl, ?_⟩
    have hb := backendPhase_reply { st with cbFailures := 0, cbResetTime := 0, aiRateBuckets := (allowEvent st.aiRateBuckets 30000 4 now u).2 } now (cacheKeyHistory u (clampText msg 800 "…") hasLead) (detectLanguage msg) (emptyFallbackHistory (detectLanguage msg)) backend
    rcases hb.2 with hp | hp | hp <;> rw [hp] <;> rfl
  · intro st now u msg hasLead hu hm hl hrate hclosed hmiss
    unfold generateAiReplyWithHistory
    rw [if_neg (not_or.mpr ⟨hu, hm⟩), if_neg (by omega)]
    have hnlt : ¬(now < st.cbResetTime) := by omega
    have hnpos : ¬(0 < st.cbResetTime) := by omega
    simp only [hrate, not_true, if_false, Bool.not_eq_true, ite_false, ite_true,
      isCircuitBreakerOpen, hnlt, hnpos, hmiss]
    constructor
    · rfl
    · simp [backendPhase, recordCircuitBreakerFailure, hclosed]
  · intro st now u msg content hasLead hu hm hl hrate hclosed hmiss hc
    unfold generateAiReplyWithHistory
    rw [if_neg (not_or.mpr ⟨hu, hm⟩), if_neg (by omega)]
    have hnlt : ¬(now < st.cbResetTime) := by omega
    have hnpos : ¬(0 < st.cbResetTime) := by omega
    simp only [hrate, not_true, if_false, Bool.not_eq_true, ite_false, ite_true,
      isCircuitBreakerOpen, hnlt, hnpos, hmiss]
    simp [backendPhase, hc, hclosed]

/-- Witness for C4's corrected statement at concrete inputs: an open
breaker short-circuits; an expired one lets the call through; a failure
from a clean state sets the counter to one without opening; a success
decrements. -/
theorem c4_witness :
    ((generateAiReplyWithHistory ⟨[], 5, 700000, []⟩ 650000 "u" "hi" false
        (.error ())).2 =
      .ok ⟨unavailableFallback (detectLanguage "hi"), detectLanguage "hi",
        .breakerOpen⟩) ∧
    (∃ r, (generateAiReplyWithHistory ⟨[], 5, 700000, []⟩ 700000 "u" "hi" false
        (.error ())).2 = .ok r ∧ r.path.usedBackend = true) ∧
    ((generateAiReplyWithHistory ⟨[], 0, 0, []⟩ 0 "u" "hi" false
        (.error ())).1.cbFailures = 1 ∧
      (generateAiReplyWithHistory ⟨[], 0, 0, []⟩ 0 "u" "hi" false
        (.error ())).1.cbResetTime =
        (if CIRCUIT_BREAKER_THRESHOLD ≤ 0 + 1 then 0 + CIRCUIT_BREAKER_TIMEOUT
         else 0)) ∧
    ((generateAiReplyWithHistory ⟨[], 3, 0, []⟩ 0 "u" "hi" false
        (.ok "fine")).1.cbFailures = 3 - 1 ∧
      (generateAiReplyWithHistory ⟨[], 3, 0, []⟩ 0 "u" "hi" false
        (.ok "fine")).1.cbResetTime = 0) :=
  ⟨(c4_breaker_behaviour.1 ⟨[], 5, 700000, []⟩ 650000 "u" "hi" false (.error ())
      (by decide) (by decide) (by decide) rfl (by decide)).1,
    c4_breaker_behaviour.2.1 ⟨[], 5, 700000, []⟩ 700000 "u" "hi" false (.error ())
      (by decide) (by decide) (by decide) rfl (by decide) (by decide) rfl,
    c4_breaker_behaviour.2.2.1 ⟨[], 0, 0, []⟩ 0 "u" "hi" false
      (by decide) (by decide) (by decide) rfl rfl rfl,
    c4_breaker_behaviour.2.2.2 ⟨[], 3, 0, []⟩ 0 "u" "hi" "fine" false
      (by decide) (by decide) (by decide) rfl rfl rfl (by decide)⟩

end SalesBot
